import Mathlib

/-!
Verification of the BelConfort receipt generator's pricing and layout logic.

Money values are modelled as exact rationals (`ℚ`), quantities as `ℕ`.
Strings are Lean `String`s; the JavaScript `toUpperCase` is modelled by an
ASCII upper-casing extended with the Portuguese diacritics that occur in the
product vocabulary.
-/

namespace Cupom

/-- JS `toUpperCase`, restricted to ASCII plus Portuguese accented vowels/cedilla. -/
def jsUpperChar (c : Char) : Char :=
  if c = 'ã' then 'Ã' else if c = 'á' then 'Á' else if c = 'à' then 'À'
  else if c = 'â' then 'Â' else if c = 'é' then 'É' else if c = 'ê' then 'Ê'
  else if c = 'í' then 'Í' else if c = 'ó' then 'Ó' else if c = 'ô' then 'Ô'
  else if c = 'õ' then 'Õ' else if c = 'ú' then 'Ú' else if c = 'ç' then 'Ç'
  else c.toUpper

/-- `name.toUpperCase()` on the character list of a string. -/
def upperStr (s : String) : String := ⟨s.data.map jsUpperChar⟩

/-- JS `hay.includes(needle)` : substring containment. -/
def strContains (hay needle : String) : Bool :=
  hay.data.tails.any fun t => needle.data.isPrefixOf t

/-- JS `hay.startsWith(needle)`. -/
def strStarts (hay needle : String) : Bool :=
  needle.data.isPrefixOf hay.data

/-- A cart line item (`Product` in `types.ts`): display code, catalog name,
unit price, quantity and a warranty annotation. -/
structure Product where
  code : String
  name : String
  price : ℚ
  quantity : ℕ
  warrantyTime : String
  warrantyUnit : String
deriving DecidableEq

/-- Manual discount kind (`discountType`): `fixed` or `percentage`. -/
inductive DiscountType
  | fixed
  | percentage
deriving DecidableEq

/-! ## Bundle pricing engine (`getBundleDetails` in the app component) -/

/-- The gift pillow SKU name used by the bundle engine. -/
def specificPillowName : String := "TRAVESSEIRO FLOCOS CONFORTO 20CM 60X40 BRANCO"

/-- `products.some(p => p.name !== specificPillowName)`. -/
def hasAnyOtherProduct (products : List Product) : Bool :=
  products.any fun p => p.name != specificPillowName

/-- The mutable locals of `getBundleDetails`: the three per-class mattress
pools, the accumulated discount and the two label flags. -/
structure BundleState where
  casal : ℕ
  queen : ℕ
  superKing : ℕ
  totalDiscount : ℚ
  hasBase : Bool
  hasPillow : Bool
deriving DecidableEq

/-- One step of the mattress-tally pass (first `forEach` of `getBundleDetails`). -/
def tallyStep (s : BundleState) (p : Product) : BundleState :=
  let name := upperStr p.name
  if strContains name "COLCHÃO" || strContains name "COLCHAO" then
    if strContains name "CASAL" then { s with casal := s.casal + p.quantity }
    else if strContains name "QUEEN" then { s with queen := s.queen + p.quantity }
    else if strContains name "SUPER KING" then { s with superKing := s.superKing + p.quantity }
    else s
  else s

/-- State after the tally pass: the per-class mattress pools. -/
def bundleInit (products : List Product) : BundleState :=
  products.foldl tallyStep ⟨0, 0, 0, 0, false, false⟩

/-- The gift-pillow branch of the rules pass. -/
def pillowStep (hasOther : Bool) (s : BundleState) (p : Product) : BundleState :=
  if upperStr p.name = specificPillowName then
    if hasOther then
      { s with totalDiscount := s.totalDiscount + p.price * p.quantity, hasPillow := true }
    else s
  else s

/-- The base/mattress combo branch of the rules pass, with the three size
classes checked in source order. -/
def baseStep (s : BundleState) (p : Product) : BundleState :=
  let name := upperStr p.name
  if strStarts name "BASE" then
    if strContains name "CASAL" && decide (0 < s.casal) then
      let quantityToDiscount := min p.quantity s.casal
      if 0 < quantityToDiscount then
        let discountPerItem := max 0 (p.price - 250)
        { s with totalDiscount := s.totalDiscount + discountPerItem * quantityToDiscount,
                 casal := s.casal - quantityToDiscount,
                 hasBase := s.hasBase || decide (0 < discountPerItem) }
      else s
    else if strContains name "QUEEN" && decide (0 < s.queen) then
      let quantityToDiscount := min p.quantity s.queen
      if 0 < quantityToDiscount then
        let discountPerItem := max 0 (p.price - 300)
        { s with totalDiscount := s.totalDiscount + discountPerItem * quantityToDiscount,
                 queen := s.queen - quantityToDiscount,
                 hasBase := s.hasBase || decide (0 < discountPerItem) }
      else s
    else if strContains name "SUPER KING" && decide (0 < s.superKing) then
      let quantityToDiscount := min p.quantity s.superKing
      if 0 < quantityToDiscount then
        let discountPerItem := max 0 (p.price - 350)
        { s with totalDiscount := s.totalDiscount + discountPerItem * quantityToDiscount,
                 superKing := s.superKing - quantityToDiscount,
                 hasBase := s.hasBase || decide (0 < discountPerItem) }
      else s
    else s
  else s

/-- One step of the rules pass (second `forEach`): pillow branch then base branch. -/
def bundleStep (hasOther : Bool) (s : BundleState) (p : Product) : BundleState :=
  baseStep (pillowStep hasOther s p) p

/-- Final engine state after both passes. -/
def bundleFinal (products : List Product) : BundleState :=
  products.foldl (bundleStep (hasAnyOtherProduct products)) (bundleInit products)

/-- Result record of `getBundleDetails`. -/
structure BundleDetails where
  totalDiscount : ℚ
  label : String
deriving DecidableEq

/-- `getBundleDetails(products)`: automatic discount amount and display label. -/
def getBundleDetails (products : List Product) : BundleDetails :=
  let s := bundleFinal products
  { totalDiscount := s.totalDiscount,
    label :=
      if s.hasBase && s.hasPillow then "Desconto Combo + Travesseiro Brinde"
      else if s.hasBase then "Desconto Combo (Base+Colchão)"
      else if s.hasPillow then "Desconto (Travesseiro Brinde)"
      else "Desconto Promocional" }

/-! ## Discount aggregator (App component, total calculations) -/

/-- `subtotal = products.reduce((acc, curr) => acc + curr.price * curr.quantity, 0)`. -/
def subtotal (products : List Product) : ℚ :=
  products.foldl (fun acc curr => acc + curr.price * curr.quantity) 0

/-- Manual discount: the entered value when fixed, `subtotal * (value / 100)`
when percentage. -/
def manualDiscount (dt : DiscountType) (discountValue : ℚ) (sub : ℚ) : ℚ :=
  match dt with
  | .fixed => discountValue
  | .percentage => sub * (discountValue / 100)

/-- `totalValue = Math.max(0, subtotal - (bundleDiscount + manualDiscount))`. -/
def totalValue (products : List Product) (dt : DiscountType) (dv : ℚ) : ℚ :=
  let sub := subtotal products
  let bundleDiscount := (getBundleDetails products).totalDiscount
  let manual := manualDiscount dt dv sub
  max 0 (sub - (bundleDiscount + manual))

/-! ## Generic list lemmas -/

theorem foldl_add_eq_sum {α : Type} (f : α → ℚ) (l : List α) :
    ∀ a : ℚ, l.foldl (fun acc c => acc + f c) a = a + (l.map f).sum := by
  induction l with
  | nil => intro a; simp
  | cons p l ih => intro a; simp [ih]; ring

/-- **C1**: the aggregator computes `subtotal = Σ unitPrice×quantity`,
`manualDiscount = value` for FIXED and `subtotal×value/100` for PERCENTAGE
(always against the subtotal), and
`total = max(0, subtotal − automaticDiscount − manualDiscount)`; the total is
never negative, even when the combined discounts exceed the subtotal. -/
theorem C1_discount_aggregator (products : List Product) (dt : DiscountType) (dv : ℚ) :
    subtotal products = (products.map fun p => p.price * (p.quantity : ℚ)).sum ∧
    manualDiscount .fixed dv (subtotal products) = dv ∧
    manualDiscount .percentage dv (subtotal products) = subtotal products * dv / 100 ∧
    totalValue products dt dv
      = max 0 (subtotal products - (getBundleDetails products).totalDiscount
          - manualDiscount dt dv (subtotal products)) ∧
    0 ≤ totalValue products dt dv := by
  refine ⟨?_, rfl, ?_, ?_, ?_⟩
  · simpa using foldl_add_eq_sum (fun p => p.price * (p.quantity : ℚ)) products 0
  · simp [manualDiscount, mul_div_assoc]
  · show 0 ⊔ (subtotal products - ((getBundleDetails products).totalDiscount
        + manualDiscount dt dv (subtotal products))) = _
    rw [sub_add_eq_sub_sub]
  · exact le_max_left 0 _

/-! ## Claim-side view of the bundle engine -/

/-- Discount contribution of the gift-pillow branch for one item. -/
def pillowAdd (hasOther : Bool) (p : Product) : ℚ :=
  if upperStr p.name = specificPillowName then
    if hasOther then p.price * p.quantity else 0
  else 0

/-- Full price of all gift-pillow line items in the cart. -/
def pillowTotal (products : List Product) : ℚ :=
  ((products.filter fun p => upperStr p.name == specificPillowName).map
    fun p => p.price * (p.quantity : ℚ)).sum

/-- Engine state when only the base/mattress combo branch runs. -/
def baseFinal (products : List Product) : BundleState :=
  products.foldl baseStep (bundleInit products)

/-- The three promo size classes. -/
inductive SizeClass
  | casal
  | queen
  | superKing
deriving DecidableEq

/-- Fixed reference price per size class. -/
def classTarget : SizeClass → ℚ
  | .casal => 250
  | .queen => 300
  | .superKing => 350

/-- Size class of an (upper-cased) name, in source priority order. -/
def classOf (name : String) : Option SizeClass :=
  if strContains name "CASAL" then some .casal
  else if strContains name "QUEEN" then some .queen
  else if strContains name "SUPER KING" then some .superKing
  else none

/-- Mattress pool of a size class. -/
def getPool (s : BundleState) : SizeClass → ℕ
  | .casal => s.casal
  | .queen => s.queen
  | .superKing => s.superKing

/-- Replace the mattress pool of a size class. -/
def setPool (s : BundleState) (c : SizeClass) (n : ℕ) : BundleState :=
  match c with
  | .casal => { s with casal := n }
  | .queen => { s with queen := n }
  | .superKing => { s with superKing := n }

/-- Combo branch as the claim describes it, generic over the size class:
for a base item of class `c` with pool `> 0`, take `n = min(quantity, pool)`,
add `n × max(0, price − target)` and decrement the pool by `n`.  The label
flag follows the amended reading: it is set only when `n > 0` and the
per-unit discount is positive. -/
def claimBaseStep (s : BundleState) (p : Product) : BundleState :=
  let name := upperStr p.name
  if strStarts name "BASE" then
    match classOf name with
    | some c =>
      if 0 < getPool s c then
        let n := min p.quantity (getPool s c)
        let discountPerItem := max 0 (p.price - classTarget c)
        let s1 := setPool s c (getPool s c - n)
        { s1 with totalDiscount := s1.totalDiscount + discountPerItem * n,
                  hasBase := s1.hasBase || (decide (0 < n) && decide (0 < discountPerItem)) }
      else s
    | none => s
  else s

/-- Claim-side rules step: pillow branch then generic combo branch. -/
def claimStep (hasOther : Bool) (s : BundleState) (p : Product) : BundleState :=
  claimBaseStep (pillowStep hasOther s p) p

/-- Claim-side engine state after both passes. -/
def claimFinal (products : List Product) : BundleState :=
  products.foldl (claimStep (hasAnyOtherProduct products)) (bundleInit products)

/-- A name is class-unambiguous when it contains at most one size token. -/
def unambClass (name : String) : Bool :=
  decide (((if strContains (upperStr name) "CASAL" then 1 else 0)
    + (if strContains (upperStr name) "QUEEN" then 1 else 0)
    + (if strContains (upperStr name) "SUPER KING" then 1 else 0) : ℕ) ≤ 1)

theorem baseStep_eq_claim (s : BundleState) (p : Product)
    (hp : unambClass p.name = true) : baseStep s p = claimBaseStep s p := by
  have hp' : ((if strContains (upperStr p.name) "CASAL" then 1 else 0)
      + (if strContains (upperStr p.name) "QUEEN" then 1 else 0)
      + (if strContains (upperStr p.name) "SUPER KING" then 1 else 0) : ℕ) ≤ 1 := by
    simpa [unambClass] using hp
  unfold baseStep claimBaseStep classOf
  cases hC : strContains (upperStr p.name) "CASAL" <;>
    cases hQ : strContains (upperStr p.name) "QUEEN" <;>
      cases hS : strContains (upperStr p.name) "SUPER KING" <;>
        simp only [hC, hQ, hS] at hp' ⊢ <;>
          first
          | omega
          | (dsimp only [getPool, setPool, classTarget]
             split_ifs <;> simp_all)

theorem foldl_congr_on {α β : Type} (f g : β → α → β) (q : α → Bool)
    (hfg : ∀ s a, q a = true → f s a = g s a) :
    ∀ (l : List α) (s : β), (∀ a ∈ l, q a = true) → l.foldl f s = l.foldl g s := by
  intro l
  induction l with
  | nil => intro s _; rfl
  | cons p l ih =>
    intro s hq
    have hp := hq p (List.mem_cons_self p l)
    simp only [List.foldl_cons, hfg s p hp]
    exact ih _ fun a ha => hq a (List.mem_cons_of_mem p ha)

theorem bundleFinal_eq_claimFinal (products : List Product)
    (hu : ∀ p ∈ products, unambClass p.name = true) :
    bundleFinal products = claimFinal products := by
  unfold bundleFinal claimFinal
  exact foldl_congr_on _ _ (fun p => unambClass p.name)
    (fun s p hp => by unfold bundleStep claimStep; rw [baseStep_eq_claim _ _ hp])
    products _ hu

theorem pillowStep_fields (h : Bool) (s : BundleState) (p : Product) :
    (pillowStep h s p).casal = s.casal ∧ (pillowStep h s p).queen = s.queen ∧
    (pillowStep h s p).superKing = s.superKing ∧ (pillowStep h s p).hasBase = s.hasBase ∧
    (pillowStep h s p).totalDiscount = s.totalDiscount + pillowAdd h p := by
  unfold pillowStep pillowAdd
  split_ifs <;> simp

theorem baseStep_resp (p : Product) (s t : BundleState)
    (h1 : s.casal = t.casal) (h2 : s.queen = t.queen) (h3 : s.superKing = t.superKing)
    (h4 : s.hasBase = t.hasBase) :
    (baseStep s p).casal = (baseStep t p).casal ∧
    (baseStep s p).queen = (baseStep t p).queen ∧
    (baseStep s p).superKing = (baseStep t p).superKing ∧
    (baseStep s p).hasBase = (baseStep t p).hasBase ∧
    (baseStep s p).totalDiscount - s.totalDiscount
      = (baseStep t p).totalDiscount - t.totalDiscount := by
  obtain ⟨c1, q1, k1, d1, b1, l1⟩ := s
  obtain ⟨c2, q2, k2, d2, b2, l2⟩ := t
  simp only at h1 h2 h3 h4
  subst h1 h2 h3 h4
  unfold baseStep
  dsimp only
  split_ifs <;> simp

theorem foldl_bundle_decomp (h : Bool) (l : List Product) :
    ∀ s t : BundleState, s.casal = t.casal → s.queen = t.queen →
      s.superKing = t.superKing → s.hasBase = t.hasBase →
      (l.foldl (bundleStep h) s).casal = (l.foldl baseStep t).casal ∧
      (l.foldl (bundleStep h) s).queen = (l.foldl baseStep t).queen ∧
      (l.foldl (bundleStep h) s).superKing = (l.foldl baseStep t).superKing ∧
      (l.foldl (bundleStep h) s).hasBase = (l.foldl baseStep t).hasBase ∧
      (l.foldl (bundleStep h) s).totalDiscount - s.totalDiscount
        = (l.foldl baseStep t).totalDiscount - t.totalDiscount
          + (l.map (pillowAdd h)).sum := by
  induction l with
  | nil => intro s t h1 h2 h3 h4; simp [h1, h2, h3, h4]
  | cons p l ih =>
    intro s t h1 h2 h3 h4
    simp only [List.foldl_cons, List.map_cons, List.sum_cons]
    obtain ⟨pc, pq, pk, pb, pd⟩ := pillowStep_fields h s p
    obtain ⟨rc, rq, rk, rb, rd⟩ := baseStep_resp p (pillowStep h s p) t
      (pc.trans h1) (pq.trans h2) (pk.trans h3) (pb.trans h4)
    obtain ⟨fc, fq, fk, fb, fd⟩ := ih (bundleStep h s p) (baseStep t p)
      rc rq rk rb
    refine ⟨fc, fq, fk, fb, ?_⟩
    have hstep : (bundleStep h s p).totalDiscount - s.totalDiscount
        = (baseStep t p).totalDiscount - t.totalDiscount + pillowAdd h p := by
      unfold bundleStep
      have := rd
      rw [pd] at this
      linarith
    linarith

theorem pillowAdd_sum (h : Bool) (l : List Product) :
    (l.map (pillowAdd h)).sum = if h then pillowTotal l else 0 := by
  induction l with
  | nil => cases h <;> simp [pillowTotal]
  | cons p l ih =>
    simp only [List.map_cons, List.sum_cons, ih]
    unfold pillowAdd pillowTotal
    cases h <;> by_cases hp : upperStr p.name = specificPillowName <;>
      simp_all [List.filter_cons, pillowTotal]

theorem tallyStep_hasPillow (s : BundleState) (p : Product) :
    (tallyStep s p).hasPillow = s.hasPillow := by
  unfold tallyStep
  dsimp only
  split_ifs <;> rfl

theorem tallyFold_hasPillow (l : List Product) :
    ∀ s : BundleState, (l.foldl tallyStep s).hasPillow = s.hasPillow := by
  induction l with
  | nil => intro s; rfl
  | cons p l ih => intro s; simp only [List.foldl_cons, ih, tallyStep_hasPillow]

theorem setPool_hasPillow (s : BundleState) (c : SizeClass) (n : ℕ) :
    (setPool s c n).hasPillow = s.hasPillow := by
  cases c <;> rfl

theorem claimBaseStep_hasPillow (s : BundleState) (p : Product) :
    (claimBaseStep s p).hasPillow = s.hasPillow := by
  unfold claimBaseStep
  dsimp only
  repeat' split
  all_goals simp [setPool_hasPillow]

theorem pillowStep_hasPillow (h : Bool) (s : BundleState) (p : Product) :
    (pillowStep h s p).hasPillow
      = (s.hasPillow || (decide (upperStr p.name = specificPillowName) && h)) := by
  unfold pillowStep
  split_ifs <;> simp_all

theorem claimFold_hasPillow (h : Bool) (l : List Product) :
    ∀ s : BundleState, (l.foldl (claimStep h) s).hasPillow
      = (s.hasPillow || (h && l.any fun p => upperStr p.name == specificPillowName)) := by
  induction l with
  | nil => intro s; simp
  | cons p l ih =>
    intro s
    simp only [List.foldl_cons, List.any_cons, ih]
    unfold claimStep
    rw [claimBaseStep_hasPillow, pillowStep_hasPillow]
    cases h <;> cases hs : s.hasPillow <;>
      by_cases hp : upperStr p.name = specificPillowName <;> simp [hp]

/-! ## Concrete carts for the claims' worked examples -/

/-- Example cart of the combo rule: a CASAL mattress (×2) and a CASAL base at 400. -/
def comboCart : List Product :=
  [⟨"100001", "COLCHÃO CASAL", 900, 2, "", "MESES"⟩,
   ⟨"100002", "BASE CASAL", 400, 1, "", "MESES"⟩]

/-- A gift-pillow line item at price 100. -/
def pillowItem : Product := ⟨"100003", specificPillowName, 100, 1, "", "MESES"⟩

/-- A line item that triggers neither bundle rule. -/
def plainItem : Product := ⟨"100004", "CAMA SOLTEIRO LUXO", 500, 1, "", "MESES"⟩

/-- A CASAL mattress together with a CASAL base priced below the 250 target. -/
def cheapBaseCart : List Product :=
  [⟨"100005", "COLCHÃO CASAL", 900, 1, "", "MESES"⟩,
   ⟨"100006", "BASE CASAL", 200, 1, "", "MESES"⟩]

theorem bundleFinal_comboCart : bundleFinal comboCart = ⟨1, 0, 0, 150, true, false⟩ := by
  have hd : ((0 : ℚ) < max 0 (400 - 250)) = True := by norm_num
  simp [bundleFinal, bundleInit, comboCart, bundleStep, pillowStep, baseStep, tallyStep,
    hasAnyOtherProduct, hd,
    show strContains (upperStr "COLCHÃO CASAL") "COLCHÃO" = true from by decide,
    show strContains (upperStr "COLCHÃO CASAL") "CASAL" = true from by decide,
    show strStarts (upperStr "COLCHÃO CASAL") "BASE" = false from by decide,
    show (upperStr "COLCHÃO CASAL" = specificPillowName) = False from by decide,
    show ("COLCHÃO CASAL" != specificPillowName) = true from by decide,
    show strContains (upperStr "BASE CASAL") "COLCHÃO" = false from by decide,
    show strContains (upperStr "BASE CASAL") "COLCHAO" = false from by decide,
    show strContains (upperStr "BASE CASAL") "CASAL" = true from by decide,
    show strStarts (upperStr "BASE CASAL") "BASE" = true from by decide,
    show (upperStr "BASE CASAL" = specificPillowName) = False from by decide]
  norm_num

theorem bundleFinal_pillowOnly : bundleFinal [pillowItem] = ⟨0, 0, 0, 0, false, false⟩ := by
  simp [bundleFinal, bundleInit, pillowItem, bundleStep, pillowStep, baseStep, tallyStep,
    hasAnyOtherProduct,
    show strContains (upperStr specificPillowName) "COLCHÃO" = false from by decide,
    show strContains (upperStr specificPillowName) "COLCHAO" = false from by decide,
    show strStarts (upperStr specificPillowName) "BASE" = false from by decide,
    show (upperStr specificPillowName = specificPillowName) = True from by decide]

theorem bundleFinal_pillowPlain :
    bundleFinal [pillowItem, plainItem] = ⟨0, 0, 0, 100, false, true⟩ := by
  simp [bundleFinal, bundleInit, pillowItem, plainItem, bundleStep, pillowStep, baseStep,
    tallyStep, hasAnyOtherProduct,
    show strContains (upperStr specificPillowName) "COLCHÃO" = false from by decide,
    show strContains (upperStr specificPillowName) "COLCHAO" = false from by decide,
    show strStarts (upperStr specificPillowName) "BASE" = false from by decide,
    show (upperStr specificPillowName = specificPillowName) = True from by decide,
    show strContains (upperStr "CAMA SOLTEIRO LUXO") "COLCHÃO" = false from by decide,
    show strContains (upperStr "CAMA SOLTEIRO LUXO") "COLCHAO" = false from by decide,
    show strStarts (upperStr "CAMA SOLTEIRO LUXO") "BASE" = false from by decide,
    show (upperStr "CAMA SOLTEIRO LUXO" = specificPillowName) = False from by decide,
    show ("CAMA SOLTEIRO LUXO" != specificPillowName) = true from by decide]

theorem bundleFinal_cheapBase : bundleFinal cheapBaseCart = ⟨0, 0, 0, 0, false, false⟩ := by
  have hd : ((0 : ℚ) < max 0 (200 - 250)) = False := by norm_num
  simp [bundleFinal, bundleInit, cheapBaseCart, bundleStep, pillowStep, baseStep, tallyStep,
    hasAnyOtherProduct, hd,
    show strContains (upperStr "COLCHÃO CASAL") "COLCHÃO" = true from by decide,
    show strContains (upperStr "COLCHÃO CASAL") "CASAL" = true from by decide,
    show strStarts (upperStr "COLCHÃO CASAL") "BASE" = false from by decide,
    show (upperStr "COLCHÃO CASAL" = specificPillowName) = False from by decide,
    show ("COLCHÃO CASAL" != specificPillowName) = true from by decide,
    show strContains (upperStr "BASE CASAL") "COLCHÃO" = false from by decide,
    show strContains (upperStr "BASE CASAL") "COLCHAO" = false from by decide,
    show strContains (upperStr "BASE CASAL") "CASAL" = true from by decide,
    show strStarts (upperStr "BASE CASAL") "BASE" = true from by decide,
    show (upperStr "BASE CASAL" = specificPillowName) = False from by decide]
  norm_num

/-- **C2**: for carts whose names mention at most one size class, the engine's
discount equals the claim-side description (per base item in cart order:
`n = min(quantity, pool)`, `discount += n × max(0, price − target)`, pool
decremented by `n`, with targets 250/300/350 and pools tallied from the
mattress items); on the worked example the CASAL pool starts at 2, the
discount is exactly 150 and one CASAL mattress is left unconsumed. -/
theorem C2_combo_engine :
    (∀ products : List Product, (∀ p ∈ products, unambClass p.name = true) →
        (getBundleDetails products).totalDiscount = (claimFinal products).totalDiscount) ∧
    (bundleInit comboCart).casal = 2 ∧
    (getBundleDetails comboCart).totalDiscount = 150 ∧
    (bundleFinal comboCart).casal = 1 := by
  refine ⟨fun products hu => ?_, by decide,
    by rw [getBundleDetails, bundleFinal_comboCart],
    by rw [bundleFinal_comboCart]⟩
  rw [getBundleDetails, bundleFinal_eq_claimFinal products hu]

/-- Closed instance of `C2_combo_engine` at the worked combo cart. -/
theorem C2_combo_engine_witness :
    (getBundleDetails comboCart).totalDiscount = (claimFinal comboCart).totalDiscount :=
  C2_combo_engine.1 comboCart (by decide)

/-- **C3**: the automatic discount decomposes as the combo-only discount plus
the full price of the gift-pillow items exactly when some other line item is
present; a cart with only the pillow gets 0, and pillow (at 100) plus one
plain item gets exactly 100. -/
theorem C3_gift_pillow :
    (∀ products : List Product,
        (getBundleDetails products).totalDiscount
          = (if hasAnyOtherProduct products then pillowTotal products else 0)
            + (baseFinal products).totalDiscount) ∧
    hasAnyOtherProduct [pillowItem] = false ∧
    (getBundleDetails [pillowItem]).totalDiscount = 0 ∧
    (getBundleDetails [pillowItem, plainItem]).totalDiscount = 100 := by
  refine ⟨fun products => ?_, by decide,
    by rw [getBundleDetails, bundleFinal_pillowOnly],
    by rw [getBundleDetails, bundleFinal_pillowPlain]⟩
  have hd := (foldl_bundle_decomp (hasAnyOtherProduct products) products
    (bundleInit products) (bundleInit products) rfl rfl rfl rfl).2.2.2.2
  rw [pillowAdd_sum] at hd
  unfold getBundleDetails bundleFinal baseFinal
  dsimp only
  linarith

/-- **C4 counterexample**: a CASAL mattress with a CASAL base priced at 200
(below the 250 target) consumes `n = 1 > 0` from the pool, yet the engine
returns the neutral fallback label, not the combo label the claim requires. -/
theorem C4_label_counterexample :
    (bundleInit cheapBaseCart).casal = 1 ∧
    (bundleFinal cheapBaseCart).casal = 0 ∧
    (getBundleDetails cheapBaseCart).totalDiscount = 0 ∧
    (getBundleDetails cheapBaseCart).label = "Desconto Promocional" ∧
    (getBundleDetails cheapBaseCart).label ≠ "Desconto Combo (Base+Colchão)" := by
  refine ⟨by decide, by rw [bundleFinal_cheapBase],
    by rw [getBundleDetails, bundleFinal_cheapBase],
    by rw [getBundleDetails, bundleFinal_cheapBase]; rfl,
    by rw [getBundleDetails, bundleFinal_cheapBase]; decide⟩

/-- **C4 (amended)**: the label is "combo + gift" when both rules fired,
"combo" when only the combo rule fired, "gift" when only the pillow rule
fired, and the neutral fallback otherwise; the combo rule counts as fired
only when it consumed `n > 0` at a *positive* per-unit discount, and the
gift rule counts as fired exactly when a pillow item and some other item
are both present. -/
theorem C4_label_selection :
    (∀ products : List Product, (∀ p ∈ products, unambClass p.name = true) →
        (getBundleDetails products).label =
          (if (claimFinal products).hasBase && (claimFinal products).hasPillow then
            "Desconto Combo + Travesseiro Brinde"
          else if (claimFinal products).hasBase then "Desconto Combo (Base+Colchão)"
          else if (claimFinal products).hasPillow then "Desconto (Travesseiro Brinde)"
          else "Desconto Promocional")) ∧
    (∀ products : List Product,
        (claimFinal products).hasPillow
          = (hasAnyOtherProduct products
              && products.any fun p => upperStr p.name == specificPillowName)) := by
  constructor
  · intro products hu
    rw [getBundleDetails, bundleFinal_eq_claimFinal products hu]
  · intro products
    rw [claimFinal, claimFold_hasPillow]
    have h0 : (bundleInit products).hasPillow = false := tallyFold_hasPillow products _
    rw [h0, Bool.false_or]

/-- Closed instance of `C4_label_selection` at the cheap-base cart. -/
theorem C4_label_selection_witness :
    (getBundleDetails cheapBaseCart).label =
      (if (claimFinal cheapBaseCart).hasBase && (claimFinal cheapBaseCart).hasPillow then
        "Desconto Combo + Travesseiro Brinde"
      else if (claimFinal cheapBaseCart).hasBase then "Desconto Combo (Base+Colchão)"
      else if (claimFinal cheapBaseCart).hasPillow then "Desconto (Travesseiro Brinde)"
      else "Desconto Promocional") :=
  C4_label_selection.1 cheapBaseCart (by decide)

/-! ## Adaptive grid rows (`drawDynamicRow` in the PDF service)

Text measurement (`doc.getTextWidth`) is an external capability and is
modelled as an abstract function `String → ℚ`; value text and label text are
measured in different font settings, hence two separate functions. -/

/-- One labeled field of a dynamic row. -/
structure Field where
  label : String
  text : String
  min : ℚ

/-- JS `f.text || "-"`: an empty value renders as a dash. -/
def displayText (t : String) : String := if t = "" then "-" else t

/-- Needed width of one field: `max(measured text, measured uppercase label) + 6`,
floored at the field's configured minimum. -/
def neededWidth (measV measL : String → ℚ) (f : Field) : ℚ :=
  max (max (measV (displayText f.text)) (measL (upperStr f.label)) + 6) f.min

/-- Needed widths of a whole row. -/
def neededWidths (measV measL : String → ℚ) (fields : List Field) : List ℚ :=
  fields.map (neededWidth measV measL)

/-- `finalWidths`: equal division when the total needed width is 0, otherwise
proportional distribution of the content width. -/
def rawWidths (contentWidth : ℚ) (needed : List ℚ) : List ℚ :=
  let totalNeeded := needed.sum
  if totalNeeded = 0 then needed.map fun _ => contentWidth / needed.length
  else needed.map fun nw => nw / totalNeeded * contentWidth

/-- The drawing loop's width assignment: every field takes its computed width
except the last, which takes whatever remains up to the right margin. -/
def absorbLast (remaining : ℚ) : List ℚ → List ℚ
  | [] => []
  | [_] => [remaining]
  | w :: ws => w :: absorbLast (remaining - w) ws

/-- Widths actually allocated by `drawDynamicRow`. -/
def drawDynamicRowWidths (contentWidth : ℚ) (measV measL : String → ℚ)
    (fields : List Field) : List ℚ :=
  absorbLast contentWidth (rawWidths contentWidth (neededWidths measV measL fields))

theorem absorbLast_sum : ∀ (l : List ℚ) (r : ℚ), l ≠ [] → (absorbLast r l).sum = r := by
  intro l
  induction l with
  | nil => intro r h; exact absurd rfl h
  | cons x ws ih =>
    intro r _
    cases ws with
    | nil => simp [absorbLast]
    | cons y ys =>
      simp only [absorbLast, List.sum_cons]
      rw [ih (r - x) (List.cons_ne_nil y ys)]
      ring

theorem absorbLast_of_sum : ∀ (l : List ℚ) (r : ℚ), l.sum = r → absorbLast r l = l := by
  intro l
  induction l with
  | nil => intro r _; rfl
  | cons x ws ih =>
    intro r h
    cases ws with
    | nil => simp at h; simp [absorbLast, h]
    | cons y ys =>
      simp only [absorbLast, List.cons.injEq, true_and]
      apply ih
      simp only [List.sum_cons] at h ⊢
      linarith

theorem sum_map_div_mul (l : List ℚ) (t cw : ℚ) :
    (l.map fun nw => nw / t * cw).sum = l.sum / t * cw := by
  induction l with
  | nil => simp
  | cons x ws ih => simp [ih]; ring

/-- A measurement stub that reports width 0 for every string. -/
def zeroMeasure : String → ℚ := fun _ => 0

/-- Three fields whose needed widths come out as `[20, 20, 60]` (all content
measures 0, so the configured minimums 20/20/60 win). -/
def exFields : List Field :=
  [⟨"A", "a", 20⟩, ⟨"B", "b", 20⟩, ⟨"C", "c", 60⟩]

/-- **C5**: allocated row widths always sum exactly to the content width
(last field absorbs the remainder); when the total needed width is nonzero
the allocation is exactly proportional (including the last field); when it
is zero the widths fall back to equal division, so no division by zero
occurs; and needed widths `[20, 20, 60]` at content width 100 allocate
exactly `[20, 20, 60]`. -/
theorem C5_dynamic_row :
    (∀ (cw : ℚ) (mV mL : String → ℚ) (fields : List Field), fields ≠ [] →
        (drawDynamicRowWidths cw mV mL fields).sum = cw) ∧
    (∀ (cw : ℚ) (needed : List ℚ), needed.sum ≠ 0 →
        absorbLast cw (rawWidths cw needed) = needed.map fun nw => nw / needed.sum * cw) ∧
    (∀ (cw : ℚ) (needed : List ℚ), needed.sum = 0 →
        rawWidths cw needed = needed.map fun _ => cw / needed.length) ∧
    drawDynamicRowWidths 100 zeroMeasure zeroMeasure exFields = [20, 20, 60] := by
  refine ⟨?_, ?_, ?_, ?_⟩
  · intro cw mV mL fields h
    apply absorbLast_sum
    unfold rawWidths neededWidths
    dsimp only
    split_ifs <;> simp [Ne, List.map_eq_nil_iff, h]
  · intro cw needed h
    unfold rawWidths
    dsimp only
    rw [if_neg h]
    apply absorbLast_of_sum
    rw [sum_map_div_mul, div_self h, one_mul]
  · intro cw needed h
    unfold rawWidths
    dsimp only
    rw [if_pos h]
  · norm_num [drawDynamicRowWidths, rawWidths, neededWidths, neededWidth, displayText,
      zeroMeasure, exFields, absorbLast, upperStr]

/-- Closed instances of `C5_dynamic_row` discharging each hypothesis. -/
theorem C5_dynamic_row_witness :
    (drawDynamicRowWidths 100 zeroMeasure zeroMeasure exFields).sum = 100 ∧
    absorbLast 100 (rawWidths 100 [20, 20, 60])
      = ([20, 20, 60] : List ℚ).map (fun nw => nw / ([20, 20, 60] : List ℚ).sum * 100) ∧
    rawWidths 100 [0, 0]
      = ([0, 0] : List ℚ).map fun _ => (100 : ℚ) / (([0, 0] : List ℚ).length : ℚ) :=
  ⟨C5_dynamic_row.1 100 zeroMeasure zeroMeasure exFields (by simp [exFields]),
   C5_dynamic_row.2.1 100 [20, 20, 60] (by norm_num),
   C5_dynamic_row.2.2.1 100 [0, 0] (by norm_num)⟩

/-! ## Shrink-to-fit cell text (`drawCell` in the PDF service) -/

/-- The ellipsis marker appended on truncation. -/
def ellipsis : List Char := ['.', '.', '.']

/-- The regex `(\r\n|\n|\r) → " "` flattening of newlines. -/
def flattenNewlines : List Char → List Char
  | [] => []
  | '\r' :: '\n' :: rest => ' ' :: flattenNewlines rest
  | '\r' :: rest => ' ' :: flattenNewlines rest
  | '\n' :: rest => ' ' :: flattenNewlines rest
  | c :: rest => c :: flattenNewlines rest

/-- The display value of a cell before fitting: `value || "-"`, newlines
flattened to spaces. -/
def cellDisplay (value : String) : List Char :=
  flattenNewlines (if value = "" then "-" else value).data

/-- The `while` loop of `drawCell`: drop trailing characters while the text
plus ellipsis is still too wide and characters remain. -/
def truncateLoop (meas : List Char → ℚ) (maxW : ℚ) (s : List Char) : List Char :=
  if h : maxW < meas (s ++ ellipsis) ∧ s ≠ [] then
    truncateLoop meas maxW s.dropLast
  else s
termination_by s.length
decreasing_by
  simp only [List.length_dropLast]
  have := List.length_pos.mpr h.2
  omega

/-- Font size chosen by `drawCell`: 9 by default; scaled by
`maxWidth / textWidth` with a hard floor of 5 when the text measures wider
than the usable width. -/
def cellFontSize (meas : ℚ → List Char → ℚ) (maxW : ℚ) (value : String) : ℚ :=
  let w0 := meas 9 (cellDisplay value)
  if maxW < w0 then (if maxW / w0 * 9 < 5 then 5 else maxW / w0 * 9) else 9

/-- `drawCell`'s value fitting: measure at font size 9, scale down by
`maxWidth / textWidth`, floor at 5, then truncate with an ellipsis if the
text still overflows at the chosen size.  Returns the drawn characters and
the chosen font size. -/
def drawCellValue (meas : ℚ → List Char → ℚ) (maxW : ℚ) (value : String) : List Char × ℚ :=
  let displayValue := cellDisplay value
  let fontSize := cellFontSize meas maxW value
  if maxW < meas fontSize displayValue then
    (truncateLoop (meas fontSize) maxW displayValue ++ ellipsis, fontSize)
  else (displayValue, fontSize)

theorem truncateLoop_spec (meas : List Char → ℚ) (maxW : ℚ) (s : List Char) :
    (meas (truncateLoop meas maxW s ++ ellipsis) ≤ maxW ∨ truncateLoop meas maxW s = []) ∧
    ∃ k, truncateLoop meas maxW s = s.take k := by
  generalize hn : s.length = n
  induction n using Nat.strong_induction_on generalizing s with
  | _ n ih =>
    rw [truncateLoop]
    split_ifs with h
    · have hlt : s.dropLast.length < n := by
        rw [← hn, List.length_dropLast]
        have := List.length_pos.mpr h.2
        omega
      obtain ⟨h1, k, h2⟩ := ih _ hlt s.dropLast rfl
      refine ⟨h1, k ⊓ (s.length - 1), ?_⟩
      rw [h2, List.dropLast_eq_take, List.take_take]
    · refine ⟨?_, s.length, (List.take_length s).symm⟩
      by_cases hs : s = []
      · exact Or.inr hs
      · exact Or.inl (le_of_not_lt fun hlt => h ⟨hlt, hs⟩)

/-- **C6**: the drawn font size is 9 when the measured value fits the usable
width, and otherwise the ratio-scaled size `maxW / width * 9` floored at 5;
when the value fits at the chosen size it is drawn unchanged, and otherwise
it is truncated from the end with an ellipsis appended, stopping as soon as
the truncated text with the ellipsis fits (or the whole text is consumed). -/
theorem C6_shrink_truncate (meas : ℚ → List Char → ℚ) (maxW : ℚ) (value : String) :
    ((drawCellValue meas maxW value).2 = cellFontSize meas maxW value) ∧
    (cellFontSize meas maxW value
      = if maxW < meas 9 (cellDisplay value) then
          max 5 (maxW / meas 9 (cellDisplay value) * 9) else 9) ∧
    (meas (cellFontSize meas maxW value) (cellDisplay value) ≤ maxW →
      (drawCellValue meas maxW value).1 = cellDisplay value) ∧
    (maxW < meas (cellFontSize meas maxW value) (cellDisplay value) →
      ∃ k, (drawCellValue meas maxW value).1 = (cellDisplay value).take k ++ ellipsis ∧
        (meas (cellFontSize meas maxW value) ((cellDisplay value).take k ++ ellipsis) ≤ maxW
          ∨ (cellDisplay value).take k = [])) := by
  have hmax : ∀ a : ℚ, (if a < 5 then (5 : ℚ) else a) = max 5 a := by
    intro a
    rcases lt_or_le a 5 with h | h
    · rw [if_pos h, max_eq_left h.le]
    · rw [if_neg (not_lt.mpr h), max_eq_right h]
  refine ⟨?_, ?_, ?_, ?_⟩
  · unfold drawCellValue
    dsimp only
    split_ifs <;> rfl
  · unfold cellFontSize
    dsimp only
    rw [hmax]
  · intro hle
    unfold drawCellValue
    dsimp only
    rw [if_neg (not_lt.mpr hle)]
  · intro hlt
    unfold drawCellValue
    dsimp only
    rw [if_pos hlt]
    obtain ⟨h1, k, h2⟩ :=
      truncateLoop_spec (meas (cellFontSize meas maxW value)) maxW (cellDisplay value)
    exact ⟨k, by rw [h2], by rw [← h2]; exact h1⟩

/-- Linear-in-length measurement stub used for the C6 witness. -/
def exMeas (fontSize : ℚ) (s : List Char) : ℚ := fontSize * s.length

/-- Closed instance of `C6_shrink_truncate`: "HELLO WORLD" (11 chars) in a
usable width of 10 under a linear measure must be truncated. -/
theorem C6_shrink_truncate_witness :
    ∃ k, (drawCellValue exMeas 10 "HELLO WORLD").1
        = (cellDisplay "HELLO WORLD").take k ++ ellipsis ∧
      (exMeas (cellFontSize exMeas 10 "HELLO WORLD")
          ((cellDisplay "HELLO WORLD").take k ++ ellipsis) ≤ 10
        ∨ (cellDisplay "HELLO WORLD").take k = []) := by
  refine (C6_shrink_truncate exMeas 10 "HELLO WORLD").2.2.2 ?_
  have hdv : (cellDisplay "HELLO WORLD").length = 11 := by decide
  have h9 : exMeas 9 (cellDisplay "HELLO WORLD") = 99 := by
    rw [exMeas, hdv]; norm_num
  have hfs : cellFontSize exMeas 10 "HELLO WORLD" = 5 := by
    rw [(C6_shrink_truncate exMeas 10 "HELLO WORLD").2.1, h9]
    norm_num
  rw [hfs, exMeas, hdv]
  norm_num

/-! ## Smart import (`handleSmartImport` in the app component)

The product catalog is injected read-only configuration; the random code
source is modelled as a stream of draws in `[0,1)` indexed by how many codes
have been generated so far. -/

/-- One catalog entry (`PRODUCT_CATALOG`). -/
structure CatalogEntry where
  name : String
  price : ℚ
deriving DecidableEq

/-- `Math.floor(100000 + random * 900000)`. -/
def genCodeInt (r : ℚ) : ℤ := ⌊(100000 : ℚ) + r * 900000⌋

/-- The new `Product` pushed for a matched item not yet in the cart. -/
def newImportProduct (sp : CatalogEntry) (qty : ℕ) (code : String) : Product :=
  ⟨code, sp.name, sp.price, qty, "", "MESES"⟩

/-- Update the first cart item with the given name by adding `q` to its
quantity (the `findIndex` + quantity update of the import loop). -/
def mergeQuantity (name : String) (q : ℕ) : List Product → List Product
  | [] => []
  | p :: rest =>
    if p.name = name then { p with quantity := p.quantity + q } :: rest
    else p :: mergeQuantity name q rest

/-- One iteration of the import loop over `result.items`; the state is the
working product list and the number of codes generated so far. -/
def importStep (catalog : List CatalogEntry) (rng : ℕ → ℚ)
    (st : List Product × ℕ) (item : String × ℕ) : List Product × ℕ :=
  match catalog.find? (fun c => c.name == item.1) with
  | none => st
  | some sp =>
    let quantityToAdd := if item.2 = 0 then 1 else item.2
    if st.1.any fun p => p.name == sp.name then
      (mergeQuantity sp.name quantityToAdd st.1, st.2)
    else
      (st.1 ++ [newImportProduct sp quantityToAdd (toString (genCodeInt (rng st.2)))],
        st.2 + 1)

/-- The whole import loop starting from the current cart. -/
def handleSmartImport (catalog : List CatalogEntry) (rng : ℕ → ℚ)
    (cart : List Product) (items : List (String × ℕ)) : List Product :=
  (items.foldl (importStep catalog rng) (cart, 0)).1

theorem mergeQuantity_spec (name : String) (q : ℕ) :
    ∀ cart : List Product, (cart.any fun p => p.name == name) = true →
      ∃ l1 p l2, cart = l1 ++ p :: l2 ∧ p.name = name ∧ (∀ x ∈ l1, x.name ≠ name) ∧
        mergeQuantity name q cart = l1 ++ { p with quantity := p.quantity + q } :: l2 := by
  intro cart
  induction cart with
  | nil => intro h; simp at h
  | cons x rest ih =>
    intro h
    by_cases hx : x.name = name
    · exact ⟨[], x, rest, by simp, hx, by simp, by simp [mergeQuantity, hx]⟩
    · have hrest : (rest.any fun p => p.name == name) = true := by
        simpa [List.any_cons, hx] using h
      obtain ⟨l1, p, l2, he, hp, hl1, hm⟩ := ih hrest
      exact ⟨x :: l1, p, l2, by simp [he], hp,
        by simpa [hx] using hl1, by simp [mergeQuantity, hx, hm]⟩

/-- **C9**: an import item whose name has no exact catalog match leaves the
cart and the code counter unchanged; a matched item already in the cart (by
exact name) adds its quantity to the *first* matching line item, leaving
every other item unchanged; a matched item not in the cart is appended with
the catalog price and a freshly drawn code; and every drawn code is a
6-digit number (in `[100000, 999999]`). -/
theorem C9_smart_import (catalog : List CatalogEntry) (rng : ℕ → ℚ)
    (cart : List Product) (name : String) (qty k : ℕ) :
    (catalog.find? (fun c => c.name == name) = none →
      importStep catalog rng (cart, k) (name, qty) = (cart, k)) ∧
    (∀ sp, catalog.find? (fun c => c.name == name) = some sp → 1 ≤ qty →
      ((∃ l1 p l2, cart = l1 ++ p :: l2 ∧ p.name = sp.name ∧
          (∀ x ∈ l1, x.name ≠ sp.name) ∧
          importStep catalog rng (cart, k) (name, qty)
            = (l1 ++ { p with quantity := p.quantity + qty } :: l2, k)) ∨
        ((∀ p ∈ cart, p.name ≠ sp.name) ∧
          importStep catalog rng (cart, k) (name, qty)
            = (cart ++ [newImportProduct sp qty (toString (genCodeInt (rng k)))], k + 1)))) ∧
    (∀ r : ℚ, 0 ≤ r → r < 1 → 100000 ≤ genCodeInt r ∧ genCodeInt r < 1000000) := by
  refine ⟨?_, ?_, ?_⟩
  · intro h
    unfold importStep
    rw [h]
  · intro sp hf hq
    have hqty : (if qty = 0 then 1 else qty) = qty := by
      rw [if_neg (by omega)]
    unfold importStep
    rw [hf]
    dsimp only
    rw [hqty]
    cases hany : (cart.any fun p => p.name == sp.name) with
    | true =>
      left
      obtain ⟨l1, p, l2, he, hp, hl1, hm⟩ := mergeQuantity_spec sp.name qty cart hany
      exact ⟨l1, p, l2, he, hp, hl1, by simp [hm]⟩
    | false =>
      right
      refine ⟨?_, by simp⟩
      intro p hp
      have := List.any_eq_false.mp hany p hp
      simpa using this
  · intro r h0 h1
    constructor
    · rw [genCodeInt, Int.le_floor]
      push_cast
      nlinarith
    · rw [genCodeInt, Int.floor_lt]
      push_cast
      nlinarith

/-- Concrete catalog entry for the C9 witness. -/
def exEntry : CatalogEntry := ⟨"CAMA BOX", 500⟩

/-- Closed instances of `C9_smart_import` discharging each hypothesis. -/
theorem C9_smart_import_witness :
    (importStep [exEntry] (fun _ => 1/2) ([], 0) ("SOFA RETRO", 2) = ([], 0)) ∧
    ((∃ l1 p l2, ([] : List Product) = l1 ++ p :: l2 ∧ p.name = exEntry.name ∧
        (∀ x ∈ l1, x.name ≠ exEntry.name) ∧
        importStep [exEntry] (fun _ => 1/2) ([], 0) ("CAMA BOX", 2)
          = (l1 ++ { p with quantity := p.quantity + 2 } :: l2, 0)) ∨
      ((∀ p ∈ ([] : List Product), p.name ≠ exEntry.name) ∧
        importStep [exEntry] (fun _ => 1/2) ([], 0) ("CAMA BOX", 2)
          = ([] ++ [newImportProduct exEntry 2 (toString (genCodeInt ((1 : ℚ)/2)))], 0 + 1))) ∧
    (100000 ≤ genCodeInt ((1 : ℚ)/2) ∧ genCodeInt ((1 : ℚ)/2) < 1000000) :=
  ⟨(C9_smart_import [exEntry] (fun _ => 1/2) [] "SOFA RETRO" 2 0).1 rfl,
   (C9_smart_import [exEntry] (fun _ => 1/2) [] "CAMA BOX" 2 0).2.1 exEntry rfl (by norm_num),
   (C9_smart_import [exEntry] (fun _ => 1/2) [] "CAMA BOX" 2 0).2.2 (1/2)
     (by norm_num) (by norm_num)⟩

/-! ## PDF totals (`createPDFDoc` summary section) -/

/-- The `ReceiptData` fields consumed by the PDF generator's computations. -/
structure ReceiptData where
  products : List Product
  discountType : DiscountType
  discountValue : ℚ
  bundleDiscount : Option ℚ
  bundleLabel : Option String

/-- Subtotal accumulated over the PDF table rows (`subtotal += lineTotal`). -/
def pdfSubtotal (products : List Product) : ℚ :=
  products.foldl (fun acc p => acc + p.price * p.quantity) 0

/-- `manualDiscountAmount` recomputed inside `createPDFDoc`. -/
def pdfManualDiscountAmount (d : ReceiptData) (sub : ℚ) : ℚ :=
  match d.discountType with
  | .fixed => d.discountValue
  | .percentage => sub * (d.discountValue / 100)

/-- `data.bundleDiscount || 0`. -/
def pdfBundleDiscountAmount (d : ReceiptData) : ℚ := d.bundleDiscount.getD 0

/-- `finalTotal = Math.max(0, subtotal - manualDiscountAmount - bundleDiscountAmount)`. -/
def pdfFinalTotal (d : ReceiptData) : ℚ :=
  max 0 (pdfSubtotal d.products - pdfManualDiscountAmount d (pdfSubtotal d.products)
    - pdfBundleDiscountAmount d)

/-- **C10**: the PDF generator's independently recomputed subtotal and manual
discount coincide with the app preview's, and when the receipt's
`bundleDiscount` field carries the bundle discount the app computed for the
same products, the PDF's final total equals the preview's `totalValue`. -/
theorem C10_pdf_totals_agree (d : ReceiptData) :
    pdfSubtotal d.products = subtotal d.products ∧
    pdfManualDiscountAmount d (pdfSubtotal d.products)
      = manualDiscount d.discountType d.discountValue (subtotal d.products) ∧
    (d.bundleDiscount = some (getBundleDetails d.products).totalDiscount →
      pdfFinalTotal d = totalValue d.products d.discountType d.discountValue) := by
  obtain ⟨prods, dt, dv, bd, bl⟩ := d
  refine ⟨rfl, ?_, ?_⟩
  · cases dt <;> rfl
  · intro hb
    simp only at hb
    unfold pdfFinalTotal totalValue pdfBundleDiscountAmount
    dsimp only
    have hm : pdfManualDiscountAmount ⟨prods, dt, dv, bd, bl⟩ (pdfSubtotal prods)
        = manualDiscount dt dv (subtotal prods) := by cases dt <;> rfl
    have hs : pdfSubtotal prods = subtotal prods := rfl
    rw [hm, hs, hb]
    simp only [Option.getD_some]
    congr 1
    ring

/-- Closed instance of `C10_pdf_totals_agree` at the combo cart with a fixed
manual discount of 10. -/
theorem C10_pdf_totals_agree_witness :
    pdfFinalTotal ⟨comboCart, .fixed, 10, some (getBundleDetails comboCart).totalDiscount, none⟩
      = totalValue comboCart .fixed 10 :=
  (C10_pdf_totals_agree
    ⟨comboCart, .fixed, 10, some (getBundleDetails comboCart).totalDiscount, none⟩).2.2 rfl

/-! ## Page layout and pagination (`createPDFDoc`)

The document is modelled as a list of pages of draw primitives, built by the
same cursor/page-break discipline as the source.  Word wrapping
(`doc.splitTextToSize`) is an external capability modelled as a line-count
function `String → ℚ → ℕ`; barcode/QR generation are fallible oracles
returning `Option Unit`. -/

/-- Page margin (mm). -/
def margin : ℚ := 10

/-- Page width (mm, A4). -/
def pageWidth : ℚ := 210

/-- Page height (mm, A4). -/
def pageHeight : ℚ := 297

/-- Usable width between the margins. -/
def contentWidth : ℚ := pageWidth - margin * 2

/-- Draw primitives, tagged with the vertical extent used by the claims. -/
inductive Prim where
  | brandHeader
  | qrImage
  | titleBlock (y : ℚ)
  | gridRow (y : ℚ)
  | tableHeader (y : ℚ)
  | itemRow (i : ℕ) (y h : ℚ)
  | barcodeImage (i : ℕ)
  | emptyNote (y : ℚ)
  | summaryBlock (y h : ℚ)
  | obsBlock (y h : ℚ)
  | policyBlock (y h : ℚ)
  | footerBlock (y bottom : ℚ)
deriving DecidableEq

/-- Builder state: finalized pages, the current page, and the `y` cursor. -/
structure DocState where
  pages : List (List Prim)
  cur : List Prim
  y : ℚ

/-- Draw one primitive onto the current page. -/
def emit (s : DocState) (p : Prim) : DocState :=
  { s with cur := s.cur ++ [p] }

/-- `checkPageBreak(heightNeeded)`: start a new page (cursor at
`margin + 10`) when the needed height would overflow the bottom margin. -/
def checkPageBreak (heightNeeded : ℚ) (s : DocState) : DocState × Bool :=
  if pageHeight - margin < s.y + heightNeeded then
    (⟨s.pages ++ [s.cur], [], margin + 10⟩, true)
  else (s, false)

/-- Row height: base 6 plus 3.5 per wrapped description line, plus 3.5 for a
warranty annotation, floored at 8. -/
def rowHeight (split : String → ℚ → ℕ) (p : Product) : ℚ :=
  let lines := split p.name (100 - 4)
  let h1 : ℚ := 6 + lines * (7/2)
  let h2 := if p.warrantyTime != "" then h1 + 7/2 else h1
  if h2 < 8 then 8 else h2

/-- Draw the table header band (height 6) at the cursor. -/
def emitTableHeader (s : DocState) : DocState :=
  { emit s (.tableHeader s.y) with y := s.y + 6 }

/-- One item row: page-break check at the row's full height (re-emitting the
table header band on a fresh page), the row itself, the barcode if its
generation succeeds, then advance the cursor. -/
def rowStep (split : String → ℚ → ℕ) (bcGen : String → Option Unit)
    (s : DocState) (ip : ℕ × Product) : DocState :=
  let p := ip.2
  let rowH := rowHeight split p
  let cb := checkPageBreak rowH s
  let s1 := if cb.2 then emitTableHeader cb.1 else cb.1
  let s2 := emit s1 (.itemRow ip.1 s1.y rowH)
  let s3 :=
    if p.code != "" then
      match bcGen p.code with
      | some _ => emit s2 (.barcodeImage ip.1)
      | none => s2
    else s2
  { s3 with y := s3.y + rowH }

/-- Height of the summary section: left box (21) against the totals column
(5 per printed line, plus the total box spacing). -/
def summaryHeight (d : ReceiptData) : ℚ :=
  let sub := pdfSubtotal d.products
  let man := pdfManualDiscountAmount d sub
  let bun := pdfBundleDiscountAmount d
  let lines : ℚ := 1 + (if 0 < bun then 1 else 0) + (if 0 < man then 1 else 0)
  max 21 (5 * lines + 1 + 3/2 + 5)

/-- The fixed observation text. -/
def obsText : String :=
  "A garantia cobre exclusivamente o que está especificado na etiqueta e no certificado de cada produto."

/-- Observation box height: 10 plus 3.5 per wrapped line. -/
def obsHeight (split : String → ℚ → ℕ) : ℚ :=
  10 + (split obsText (contentWidth - 10) : ℚ) * (7/2)

/-- Header band, QR (when generated), and title; cursor ends at 59. -/
def headerStage (qrGen : Option Unit) : DocState :=
  let s : DocState := ⟨[], [], 10⟩
  let s := emit s .brandHeader
  let s := match qrGen with | some _ => emit s .qrImage | none => s
  let s := { s with y := 48 }
  let s := emit s (.titleBlock s.y)
  let s := { s with y := s.y + 5 }
  { s with y := s.y + 6 }

/-- One client-data grid row: break check at the fixed row height, then the
row, then advance. -/
def gridRowStep (s : DocState) : DocState :=
  let cb := checkPageBreak 10 s
  let t := emit cb.1 (.gridRow cb.1.y)
  { t with y := t.y + 10 }

/-- The three client-data grid rows plus the spacing before the table. -/
def gridStage (s : DocState) : DocState :=
  let s := gridRowStep (gridRowStep (gridRowStep s))
  { s with y := s.y + 6 }

/-- Space check for the table header, then the header band. -/
def tableHeaderStage (s : DocState) : DocState :=
  emitTableHeader (checkPageBreak 20 s).1

/-- The item rows (or the empty-cart note), then the closing spacing. -/
def rowsStage (split : String → ℚ → ℕ) (bcGen : String → Option Unit)
    (d : ReceiptData) (s : DocState) : DocState :=
  let s :=
    if d.products.isEmpty then
      { emit s (.emptyNote s.y) with y := s.y + 20 }
    else
      d.products.enum.foldl (rowStep split bcGen) s
  { s with y := s.y + 4 }

/-- Summary section at a 25-height checkpoint. -/
def summaryStage (d : ReceiptData) (s : DocState) : DocState :=
  let s := (checkPageBreak 25 s).1
  let sh := summaryHeight d
  { emit s (.summaryBlock s.y sh) with y := s.y + sh }

/-- Observation box at an `obsHeight + 5` checkpoint. -/
def obsStage (split : String → ℚ → ℕ) (s : DocState) : DocState :=
  let s := { s with y := s.y + 4 }
  let oh := obsHeight split
  let s := (checkPageBreak (oh + 5) s).1
  { emit s (.obsBlock s.y oh) with y := s.y + oh + 4 }

/-- Return-policy block (fixed height 58) at a 68-height checkpoint. -/
def policyStage (s : DocState) : DocState :=
  let s := (checkPageBreak (58 + 10) s).1
  { emit s (.policyBlock s.y 58) with y := s.y + 58 }

/-- Footer at a 45-height checkpoint; its lowest text sits at
`max (y + 45) (pageHeight - 10)`. -/
def footerStage (s : DocState) : DocState :=
  let s := (checkPageBreak 45 s).1
  emit s (.footerBlock s.y (max (s.y + 45) (pageHeight - 10)))

/-- The whole `createPDFDoc` skeleton. -/
def buildDoc (split : String → ℚ → ℕ) (qrGen : Option Unit)
    (bcGen : String → Option Unit) (d : ReceiptData) : DocState :=
  footerStage (policyStage (obsStage split (summaryStage d
    (rowsStage split bcGen d (tableHeaderStage (gridStage (headerStage qrGen)))))))

/-- The produced document: all finalized pages plus the last open page. -/
def docPages (split : String → ℚ → ℕ) (qrGen : Option Unit)
    (bcGen : String → Option Unit) (d : ReceiptData) : List (List Prim) :=
  let s := buildDoc split qrGen bcGen d
  s.pages ++ [s.cur]

/-! ## Image failures are local (C8) -/

/-- Primitives produced by the fallible image oracles. -/
def isImagePrim : Prim → Bool
  | .qrImage => true
  | .barcodeImage _ => true
  | _ => false

/-- A page with its image primitives removed. -/
def stripPage (pg : List Prim) : List Prim := pg.filter fun pr => !isImagePrim pr

/-- A document with all image primitives removed. -/
def stripImages (pages : List (List Prim)) : List (List Prim) := pages.map stripPage

/-- Two builder states that agree on everything except image primitives. -/
def stripEq (s t : DocState) : Prop :=
  s.y = t.y ∧ stripImages s.pages = stripImages t.pages ∧ stripPage s.cur = stripPage t.cur

theorem stripPage_append (a b : List Prim) : stripPage (a ++ b) = stripPage a ++ stripPage b := by
  simp [stripPage]

theorem stripEq_emit {s t : DocState} (h : stripEq s t) (p : Prim) :
    stripEq (emit s p) (emit t p) := by
  obtain ⟨hy, hp, hc⟩ := h
  exact ⟨hy, hp, by simp only [emit, stripPage_append, hc]⟩

theorem stripEq_emit_at {s t : DocState} (h : stripEq s t) (f : ℚ → Prim) :
    stripEq (emit s (f s.y)) (emit t (f t.y)) := by
  obtain ⟨hy, hp, hc⟩ := h
  rw [show s.y = t.y from hy]
  exact stripEq_emit ⟨hy, hp, hc⟩ _

theorem stripEq_block {s t : DocState} (h : stripEq s t) (f : ℚ → Prim) (g : ℚ → ℚ) :
    stripEq { emit s (f s.y) with y := g s.y } { emit t (f t.y) with y := g t.y } := by
  have hy := h.1
  obtain ⟨hy2, hp2, hc2⟩ := stripEq_emit_at h f
  exact ⟨by rw [hy], hp2, hc2⟩

theorem stripEq_emit_image_left {s t : DocState} (h : stripEq s t) (p : Prim)
    (hi : isImagePrim p = true) : stripEq (emit s p) t := by
  obtain ⟨hy, hp, hc⟩ := h
  refine ⟨hy, hp, ?_⟩
  rw [emit]
  dsimp only
  rw [stripPage_append]
  simpa [stripPage, hi] using hc

theorem stripEq_emit_image_right {s t : DocState} (h : stripEq s t) (p : Prim)
    (hi : isImagePrim p = true) : stripEq s (emit t p) := by
  obtain ⟨hy, hp, hc⟩ := h
  refine ⟨hy, hp, ?_⟩
  rw [emit]
  dsimp only
  rw [stripPage_append]
  simpa [stripPage, hi] using hc

theorem stripEq_addY {s t : DocState} (h : stripEq s t) (a : ℚ) :
    stripEq { s with y := s.y + a } { t with y := t.y + a } := by
  obtain ⟨hy, hp, hc⟩ := h
  exact ⟨by rw [hy], hp, hc⟩

theorem stripEq_break {s t : DocState} (h : stripEq s t) (hh : ℚ) :
    (checkPageBreak hh s).2 = (checkPageBreak hh t).2 ∧
    stripEq (checkPageBreak hh s).1 (checkPageBreak hh t).1 := by
  obtain ⟨hy, hp, hc⟩ := h
  unfold checkPageBreak
  rw [hy]
  split_ifs
  · refine ⟨rfl, rfl, ?_, rfl⟩
    simp only [stripImages, List.map_append, List.map_cons, List.map_nil] at hp ⊢
    rw [hp, hc]
  · exact ⟨rfl, hy, hp, hc⟩

theorem stripEq_emitTableHeader {s t : DocState} (h : stripEq s t) :
    stripEq (emitTableHeader s) (emitTableHeader t) :=
  stripEq_block h (fun y => .tableHeader y) (fun y => y + 6)

theorem stripEq_rowStep (split : String → ℚ → ℕ) (bc bc2 : String → Option Unit)
    {s t : DocState} (h : stripEq s t) (ip : ℕ × Product) :
    stripEq (rowStep split bc s ip) (rowStep split bc2 t ip) := by
  unfold rowStep
  dsimp only
  obtain ⟨hb, h1⟩ := stripEq_break h (rowHeight split ip.2)
  rw [hb]
  have h2 : stripEq
      (if (checkPageBreak (rowHeight split ip.2) t).2 then
        emitTableHeader (checkPageBreak (rowHeight split ip.2) s).1
      else (checkPageBreak (rowHeight split ip.2) s).1)
      (if (checkPageBreak (rowHeight split ip.2) t).2 then
        emitTableHeader (checkPageBreak (rowHeight split ip.2) t).1
      else (checkPageBreak (rowHeight split ip.2) t).1) := by
    split_ifs
    · exact stripEq_emitTableHeader h1
    · exact h1
  have h3 := stripEq_emit_at h2 (fun y => .itemRow ip.1 y (rowHeight split ip.2))
  set s2 := emit (if (checkPageBreak (rowHeight split ip.2) t).2 then
      emitTableHeader (checkPageBreak (rowHeight split ip.2) s).1
    else (checkPageBreak (rowHeight split ip.2) s).1)
    (.itemRow ip.1 (if (checkPageBreak (rowHeight split ip.2) t).2 then
      emitTableHeader (checkPageBreak (rowHeight split ip.2) s).1
    else (checkPageBreak (rowHeight split ip.2) s).1).y (rowHeight split ip.2)) with hs2
  set t2 := emit (if (checkPageBreak (rowHeight split ip.2) t).2 then
      emitTableHeader (checkPageBreak (rowHeight split ip.2) t).1
    else (checkPageBreak (rowHeight split ip.2) t).1)
    (.itemRow ip.1 (if (checkPageBreak (rowHeight split ip.2) t).2 then
      emitTableHeader (checkPageBreak (rowHeight split ip.2) t).1
    else (checkPageBreak (rowHeight split ip.2) t).1).y (rowHeight split ip.2)) with ht2
  have h4 : stripEq
      (if ip.2.code != "" then
        match bc ip.2.code with
        | some _ => emit s2 (.barcodeImage ip.1)
        | none => s2
      else s2)
      (if ip.2.code != "" then
        match bc2 ip.2.code with
        | some _ => emit t2 (.barcodeImage ip.1)
        | none => t2
      else t2) := by
    split_ifs
    · cases bc ip.2.code <;> cases bc2 ip.2.code
      · exact h3
      · exact stripEq_emit_image_right h3 (.barcodeImage ip.1) rfl
      · exact stripEq_emit_image_left h3 (.barcodeImage ip.1) rfl
      · exact stripEq_emit_image_right
          (stripEq_emit_image_left h3 (.barcodeImage ip.1) rfl) (.barcodeImage ip.1) rfl
    · exact h3
  exact stripEq_addY h4 (rowHeight split ip.2)

theorem stripEq_foldl_rows (split : String → ℚ → ℕ) (bc bc2 : String → Option Unit)
    (l : List (ℕ × Product)) :
    ∀ {s t : DocState}, stripEq s t →
      stripEq (l.foldl (rowStep split bc) s) (l.foldl (rowStep split bc2) t) := by
  induction l with
  | nil => intro s t h; exact h
  | cons ip l ih =>
    intro s t h
    exact ih (stripEq_rowStep split bc bc2 h ip)

theorem stripEq_headerStage (qr qr2 : Option Unit) :
    stripEq (headerStage qr) (headerStage qr2) := by
  cases qr <;> cases qr2 <;>
    simp [headerStage, emit, stripEq, stripImages, stripPage, isImagePrim]

theorem stripEq_gridRowStep {s t : DocState} (h : stripEq s t) :
    stripEq (gridRowStep s) (gridRowStep t) := by
  unfold gridRowStep
  dsimp only
  exact stripEq_block (stripEq_break h 10).2 (fun y => .gridRow y) (fun y => y + 10)

theorem stripEq_gridStage {s t : DocState} (h : stripEq s t) :
    stripEq (gridStage s) (gridStage t) :=
  stripEq_addY (stripEq_gridRowStep (stripEq_gridRowStep (stripEq_gridRowStep h))) _

theorem stripEq_tableHeaderStage {s t : DocState} (h : stripEq s t) :
    stripEq (tableHeaderStage s) (tableHeaderStage t) :=
  stripEq_emitTableHeader (stripEq_break h 20).2

theorem stripEq_rowsStage (split : String → ℚ → ℕ) (bc bc2 : String → Option Unit)
    (d : ReceiptData) {s t : DocState} (h : stripEq s t) :
    stripEq (rowsStage split bc d s) (rowsStage split bc2 d t) := by
  unfold rowsStage
  dsimp only
  split_ifs
  · exact stripEq_addY (stripEq_block h (fun y => .emptyNote y) (fun y => y + 20)) 4
  · exact stripEq_addY (stripEq_foldl_rows split bc bc2 _ h) 4

theorem stripEq_summaryStage (d : ReceiptData) {s t : DocState} (h : stripEq s t) :
    stripEq (summaryStage d s) (summaryStage d t) := by
  unfold summaryStage
  dsimp only
  exact stripEq_block (stripEq_break h 25).2
    (fun y => .summaryBlock y (summaryHeight d)) (fun y => y + summaryHeight d)

theorem stripEq_obsStage (split : String → ℚ → ℕ) {s t : DocState} (h : stripEq s t) :
    stripEq (obsStage split s) (obsStage split t) := by
  unfold obsStage
  dsimp only
  exact stripEq_block (stripEq_break (stripEq_addY h 4) (obsHeight split + 5)).2
    (fun y => .obsBlock y (obsHeight split)) (fun y => y + obsHeight split + 4)

theorem stripEq_policyStage {s t : DocState} (h : stripEq s t) :
    stripEq (policyStage s) (policyStage t) := by
  unfold policyStage
  dsimp only
  exact stripEq_block (stripEq_break h (58 + 10)).2
    (fun y => .policyBlock y 58) (fun y => y + 58)

theorem stripEq_footerStage {s t : DocState} (h : stripEq s t) :
    stripEq (footerStage s) (footerStage t) := by
  unfold footerStage
  dsimp only
  exact stripEq_emit_at (stripEq_break h 45).2
    (fun y => .footerBlock y (max (y + 45) (pageHeight - 10)))

/-- **C8**: barcode and QR generation failures are swallowed locally — for
any two outcomes of the image oracles (including all-failing ones) the
produced documents are identical once image primitives are removed: every
row, band, block and page break is emitted regardless, and generation always
completes with a full document. -/
theorem C8_image_failures_ignored (split : String → ℚ → ℕ) (qr qr2 : Option Unit)
    (bc bc2 : String → Option Unit) (d : ReceiptData) :
    stripImages (docPages split qr bc d) = stripImages (docPages split qr2 bc2 d) := by
  have h : stripEq (buildDoc split qr bc d) (buildDoc split qr2 bc2 d) :=
    stripEq_footerStage (stripEq_policyStage (stripEq_obsStage split
      (stripEq_summaryStage d (stripEq_rowsStage split bc bc2 d
        (stripEq_tableHeaderStage (stripEq_gridStage (stripEq_headerStage qr qr2)))))))
  obtain ⟨_, hp, hc⟩ := h
  unfold docPages
  dsimp only
  simp only [stripImages, List.map_append, List.map_cons, List.map_nil] at hp ⊢
  rw [hp, hc]

/-! ## Pagination invariants (C7) -/

/-- Item-row primitives. -/
def isRow : Prim → Bool
  | .itemRow _ _ _ => true
  | _ => false

/-- Table-header band primitives. -/
def isHeaderBand : Prim → Bool
  | .tableHeader _ => true
  | _ => false

/-- Summary-block primitives. -/
def isSummary : Prim → Bool
  | .summaryBlock _ _ => true
  | _ => false

/-- Policy-block primitives. -/
def isPolicy : Prim → Bool
  | .policyBlock _ _ => true
  | _ => false

/-- Footer-block primitives. -/
def isFooter : Prim → Bool
  | .footerBlock _ _ => true
  | _ => false

/-- Number of primitives on a page satisfying `q`. -/
def countP (q : Prim → Bool) (pg : List Prim) : ℕ := (pg.filter q).length

/-- Every finalized page that contains an item row has exactly one header band. -/
def pagesOK (pages : List (List Prim)) : Prop :=
  ∀ pg ∈ pages, (∃ pr ∈ pg, isRow pr = true) → countP isHeaderBand pg = 1

/-- Whole-block primitives stay inside the page's bottom margin. -/
def blockFits : Prim → Prop
  | .summaryBlock y h => y + h ≤ pageHeight - margin
  | .policyBlock y h => y + h ≤ pageHeight - margin
  | .footerBlock _ bottom => bottom ≤ pageHeight - margin
  | _ => True

theorem countP_append (q : Prim → Bool) (a b : List Prim) :
    countP q (a ++ b) = countP q a + countP q b := by
  simp [countP]

theorem checkPageBreak_true {h' : ℚ} {s : DocState}
    (hb : (checkPageBreak h' s).2 = true) :
    (checkPageBreak h' s).1 = ⟨s.pages ++ [s.cur], [], margin + 10⟩ := by
  by_cases hc : pageHeight - margin < s.y + h'
  · simp [checkPageBreak, hc]
  · simp [checkPageBreak, hc] at hb

theorem checkPageBreak_false {h' : ℚ} {s : DocState}
    (hb : (checkPageBreak h' s).2 = false) :
    (checkPageBreak h' s).1 = s := by
  by_cases hc : pageHeight - margin < s.y + h'
  · simp [checkPageBreak, hc] at hb
  · simp [checkPageBreak, hc]

theorem checkPageBreak_false_le {h' : ℚ} {s : DocState}
    (hb : (checkPageBreak h' s).2 = false) :
    s.y + h' ≤ pageHeight - margin := by
  by_cases hc : pageHeight - margin < s.y + h'
  · simp [checkPageBreak, hc] at hb
  · exact not_lt.mp hc

theorem checkPageBreak_post {h' : ℚ} (hh : h' ≤ pageHeight - margin - (margin + 10))
    (s : DocState) : ((checkPageBreak h' s).1).y + h' ≤ pageHeight - margin := by
  unfold checkPageBreak
  split_ifs with hc
  · dsimp only
    norm_num [pageHeight, margin] at hh ⊢
    linarith
  · exact not_lt.mp hc

/-- The primitives of the fixed pre-table prefix. -/
def prefixPrims (qrGen : Option Unit) : List Prim :=
  (match qrGen with
    | some _ => [.brandHeader, .qrImage]
    | none => [.brandHeader]) ++
  [.titleBlock 48, .gridRow 59, .gridRow 69, .gridRow 79, .tableHeader 95]

theorem prefix_state (qrGen : Option Unit) :
    tableHeaderStage (gridStage (headerStage qrGen)) = ⟨[], prefixPrims qrGen, 101⟩ := by
  cases qrGen <;>
    norm_num [tableHeaderStage, gridStage, gridRowStep, headerStage, emitTableHeader,
      checkPageBreak, emit, pageHeight, margin, prefixPrims]

/-- Row-loop invariant: all finalized pages are row/header-consistent and the
current page carries exactly one header band. -/
def rowInv (s : DocState) : Prop :=
  pagesOK s.pages ∧ countP isHeaderBand s.cur = 1

/-- Post-table invariant: the current page either still carries its single
header band or carries no item rows at all. -/
def postInv (s : DocState) : Prop :=
  pagesOK s.pages ∧ (countP isHeaderBand s.cur = 1 ∨ countP isRow s.cur = 0)

theorem pagesOK_push {pages : List (List Prim)} {cur : List Prim} (hOK : pagesOK pages)
    (hcur : (∃ pr ∈ cur, isRow pr = true) → countP isHeaderBand cur = 1) :
    pagesOK (pages ++ [cur]) := by
  intro pg hpg
  rcases List.mem_append.mp hpg with hmem | hmem
  · exact hOK pg hmem
  · rw [List.mem_singleton.mp hmem]
    exact hcur

theorem rowStep_rowInv (split : String → ℚ → ℕ) (bc : String → Option Unit)
    {s : DocState} (h : rowInv s) (ip : ℕ × Product) :
    rowInv (rowStep split bc s ip) := by
  obtain ⟨hOK, hcnt⟩ := h
  unfold rowStep
  dsimp only
  by_cases hb : (checkPageBreak (rowHeight split ip.2) s).2 = true
  · rw [if_pos hb, checkPageBreak_true hb]
    by_cases hcode : (ip.2.code != "") = true
    · cases hbc : bc ip.2.code <;>
        · rw [if_pos hcode]
          refine ⟨pagesOK_push hOK fun _ => hcnt, ?_⟩
          simp [emitTableHeader, emit, countP, List.filter_append, isHeaderBand]
    · rw [if_neg hcode]
      refine ⟨pagesOK_push hOK fun _ => hcnt, ?_⟩
      simp [emitTableHeader, emit, countP, List.filter_append, isHeaderBand]
  · rw [if_neg hb, checkPageBreak_false (Bool.not_eq_true _ ▸ eq_false_of_ne_true hb)]
    by_cases hcode : (ip.2.code != "") = true
    · cases hbc : bc ip.2.code <;>
        · rw [if_pos hcode]
          refine ⟨hOK, ?_⟩
          simpa [emit, countP, List.filter_append, isHeaderBand] using hcnt
    · rw [if_neg hcode]
      refine ⟨hOK, ?_⟩
      simpa [emit, countP, List.filter_append, isHeaderBand] using hcnt

theorem foldl_rowStep_rowInv (split : String → ℚ → ℕ) (bc : String → Option Unit)
    (l : List (ℕ × Product)) :
    ∀ {s : DocState}, rowInv s → rowInv (l.foldl (rowStep split bc) s) := by
  induction l with
  | nil => intro s h; exact h
  | cons ip l ih => intro s h; exact ih (rowStep_rowInv split bc h ip)

theorem postInv_of_rowInv {s : DocState} (h : rowInv s) : postInv s :=
  ⟨h.1, Or.inl h.2⟩

theorem postInv_emit {s : DocState} (h : postInv s) {p : Prim}
    (hrow : isRow p = false) (hhead : isHeaderBand p = false) : postInv (emit s p) := by
  obtain ⟨hOK, hd⟩ := h
  refine ⟨hOK, ?_⟩
  rcases hd with h1 | h1
  · left
    simpa [emit, countP, List.filter_append, hhead] using h1
  · right
    simpa [emit, countP, List.filter_append, hrow] using h1

theorem postInv_setY {s : DocState} (h : postInv s) (a : ℚ) : postInv { s with y := a } := h

theorem postInv_emitY {s : DocState} (h : postInv s) (a : ℚ) (p : Prim)
    (hrow : isRow p = false) (hhead : isHeaderBand p = false) :
    postInv { emit s p with y := a } := postInv_emit h hrow hhead

theorem postInv_break {s : DocState} (h : postInv s) (h' : ℚ) :
    postInv ((checkPageBreak h' s).1) := by
  by_cases hb : (checkPageBreak h' s).2 = true
  · rw [checkPageBreak_true hb]
    obtain ⟨hOK, hd⟩ := h
    refine ⟨pagesOK_push hOK ?_, Or.inr (by simp [countP])⟩
    intro hex
    rcases hd with h1 | h1
    · exact h1
    · exfalso
      obtain ⟨pr, hpr, hprr⟩ := hex
      have hmem : pr ∈ s.cur.filter isRow := List.mem_filter.mpr ⟨hpr, hprr⟩
      have hnil : s.cur.filter isRow = [] := List.length_eq_zero.mp h1
      rw [hnil] at hmem
      exact absurd hmem (List.not_mem_nil _)
  · rw [checkPageBreak_false (Bool.not_eq_true _ ▸ eq_false_of_ne_true hb)]
    exact h

theorem postInv_rowsStage (split : String → ℚ → ℕ) (bc : String → Option Unit)
    (d : ReceiptData) {s : DocState} (h : rowInv s) :
    postInv (rowsStage split bc d s) := by
  unfold rowsStage
  dsimp only
  split_ifs
  · refine ⟨h.1, Or.inl ?_⟩
    simpa [emit, countP, List.filter_append, isHeaderBand] using h.2
  · exact postInv_of_rowInv (foldl_rowStep_rowInv split bc _ h)

theorem postInv_summaryStage (d : ReceiptData) {s : DocState} (h : postInv s) :
    postInv (summaryStage d s) := by
  unfold summaryStage
  dsimp only
  exact postInv_emitY (postInv_break h 25) _ _ rfl rfl

theorem postInv_obsStage (split : String → ℚ → ℕ) {s : DocState} (h : postInv s) :
    postInv (obsStage split s) := by
  unfold obsStage
  dsimp only
  exact postInv_emitY (postInv_break (postInv_setY h _) (obsHeight split + 5)) _ _ rfl rfl

theorem postInv_policyStage {s : DocState} (h : postInv s) : postInv (policyStage s) := by
  unfold policyStage
  dsimp only
  exact postInv_emitY (postInv_break h (58 + 10)) _ _ rfl rfl

theorem postInv_footerStage {s : DocState} (h : postInv s) : postInv (footerStage s) := by
  unfold footerStage
  dsimp only
  exact postInv_emit (postInv_break h 45) rfl rfl

theorem rowInvPrefixState (qrGen : Option Unit) :
    rowInv (tableHeaderStage (gridStage (headerStage qrGen))) := by
  rw [prefix_state]
  refine ⟨fun pg hpg => absurd hpg (List.not_mem_nil pg), ?_⟩
  cases qrGen <;> simp [prefixPrims, countP, isHeaderBand]

theorem docPages_pagesOK (split : String → ℚ → ℕ) (qrGen : Option Unit)
    (bcGen : String → Option Unit) (d : ReceiptData) :
    pagesOK (docPages split qrGen bcGen d) := by
  have hfin : postInv (buildDoc split qrGen bcGen d) :=
    postInv_footerStage (postInv_policyStage (postInv_obsStage split
      (postInv_summaryStage d (postInv_rowsStage split bcGen d (rowInvPrefixState qrGen)))))
  obtain ⟨hOK, hd⟩ := hfin
  unfold docPages
  dsimp only
  refine pagesOK_push hOK ?_
  intro hex
  rcases hd with h1 | h1
  · exact h1
  · exfalso
    obtain ⟨pr, hpr, hprr⟩ := hex
    have hmem : pr ∈ (buildDoc split qrGen bcGen d).cur.filter isRow :=
      List.mem_filter.mpr ⟨hpr, hprr⟩
    have hnil : (buildDoc split qrGen bcGen d).cur.filter isRow = [] :=
      List.length_eq_zero.mp h1
    rw [hnil] at hmem
    exact absurd hmem (List.not_mem_nil _)

theorem pages_mono_break (h' : ℚ) (s : DocState) :
    s.pages.length ≤ ((checkPageBreak h' s).1).pages.length := by
  unfold checkPageBreak
  split_ifs <;> simp

theorem rowStep_pages (split : String → ℚ → ℕ) (bc : String → Option Unit)
    (s : DocState) (ip : ℕ × Product) :
    (rowStep split bc s ip).pages = ((checkPageBreak (rowHeight split ip.2) s).1).pages := by
  unfold rowStep
  dsimp only
  by_cases hb : (checkPageBreak (rowHeight split ip.2) s).2 = true
  · rw [if_pos hb]
    by_cases hcode : (ip.2.code != "") = true
    · cases hbc : bc ip.2.code <;> (rw [if_pos hcode]; try rfl)
    · rw [if_neg hcode]
      try rfl
  · rw [if_neg hb]
    by_cases hcode : (ip.2.code != "") = true
    · cases hbc : bc ip.2.code <;> (rw [if_pos hcode]; try rfl)
    · rw [if_neg hcode]
      try rfl

theorem rowStep_false_y (split : String → ℚ → ℕ) (bc : String → Option Unit)
    (s : DocState) (ip : ℕ × Product)
    (hb : (checkPageBreak (rowHeight split ip.2) s).2 = false) :
    (rowStep split bc s ip).y = s.y + rowHeight split ip.2 := by
  unfold rowStep
  dsimp only
  have hb' : ¬(checkPageBreak (rowHeight split ip.2) s).2 = true := by simp [hb]
  by_cases hcode : (ip.2.code != "") = true
  · cases hbc : bc ip.2.code <;>
      (rw [if_pos hcode]; rw [if_neg hb', checkPageBreak_false hb]; try rfl)
  · rw [if_neg hcode]
    rw [if_neg hb', checkPageBreak_false hb]
    try rfl

theorem rowStep_len_eq (split : String → ℚ → ℕ) (bc : String → Option Unit)
    (s : DocState) (ip : ℕ × Product)
    (hlen : (rowStep split bc s ip).pages.length = s.pages.length) :
    (checkPageBreak (rowHeight split ip.2) s).2 = false := by
  by_cases hb : (checkPageBreak (rowHeight split ip.2) s).2 = true
  · exfalso
    rw [rowStep_pages, checkPageBreak_true hb] at hlen
    simp at hlen
  · simpa using hb

theorem rowStep_pages_mono (split : String → ℚ → ℕ) (bc : String → Option Unit)
    (s : DocState) (ip : ℕ × Product) :
    s.pages.length ≤ (rowStep split bc s ip).pages.length := by
  rw [rowStep_pages]
  exact pages_mono_break _ _

theorem foldl_rowStep_mono (split : String → ℚ → ℕ) (bc : String → Option Unit)
    (l : List (ℕ × Product)) :
    ∀ s : DocState, s.pages.length ≤ (l.foldl (rowStep split bc) s).pages.length := by
  induction l with
  | nil => intro s; exact le_refl _
  | cons ip l ih =>
    intro s
    exact le_trans (rowStep_pages_mono split bc s ip) (ih _)

theorem foldl_rowStep_len_y (split : String → ℚ → ℕ) (bc : String → Option Unit)
    (l : List (ℕ × Product)) :
    ∀ s : DocState, (l.foldl (rowStep split bc) s).pages.length = s.pages.length →
      (l.foldl (rowStep split bc) s).y
          = s.y + (l.map fun ip => rowHeight split ip.2).sum ∧
      (l = [] ∨ (l.foldl (rowStep split bc) s).y ≤ pageHeight - margin) := by
  induction l with
  | nil => intro s _; simp
  | cons ip l ih =>
    intro s hlen
    simp only [List.foldl_cons] at hlen ⊢
    have hmono1 : s.pages.length ≤ (rowStep split bc s ip).pages.length :=
      rowStep_pages_mono split bc s ip
    have hmono2 : (rowStep split bc s ip).pages.length
        ≤ (l.foldl (rowStep split bc) (rowStep split bc s ip)).pages.length :=
      foldl_rowStep_mono split bc l _
    have hstep : (rowStep split bc s ip).pages.length = s.pages.length := by omega
    have hb := rowStep_len_eq split bc s ip hstep
    have hy1 := rowStep_false_y split bc s ip hb
    have hle1 : s.y + rowHeight split ip.2 ≤ pageHeight - margin :=
      checkPageBreak_false_le hb
    obtain ⟨hy2, hrest⟩ := ih (rowStep split bc s ip) (by omega)
    constructor
    · rw [hy2, hy1]
      simp only [List.map_cons, List.sum_cons]
      ring
    · right
      rcases hrest with hnil | hle
      · subst hnil
        simp only [List.foldl_nil]
        rw [hy1]
        exact hle1
      · exact hle

theorem summaryStage_pages_mono (d : ReceiptData) (s : DocState) :
    s.pages.length ≤ (summaryStage d s).pages.length := by
  unfold summaryStage
  dsimp only
  exact pages_mono_break 25 s

theorem obsStage_pages_mono (split : String → ℚ → ℕ) (s : DocState) :
    s.pages.length ≤ (obsStage split s).pages.length := by
  unfold obsStage
  dsimp only
  simpa [emit] using pages_mono_break (obsHeight split + 5) { s with y := s.y + 4 }

theorem policyStage_pages_mono (s : DocState) :
    s.pages.length ≤ (policyStage s).pages.length := by
  unfold policyStage
  dsimp only
  exact pages_mono_break _ _

theorem footerStage_pages_mono (s : DocState) :
    s.pages.length ≤ (footerStage s).pages.length := by
  unfold footerStage
  dsimp only
  exact pages_mono_break 45 s

theorem rowsStage_pages (split : String → ℚ → ℕ) (bc : String → Option Unit)
    (d : ReceiptData) (s : DocState) (h : ¬d.products.isEmpty = true) :
    (rowsStage split bc d s).pages = (d.products.enum.foldl (rowStep split bc) s).pages := by
  unfold rowsStage
  dsimp only
  rw [if_neg h]

theorem enum_map_rowHeight (split : String → ℚ → ℕ) (l : List Product) :
    (l.enum.map fun ip => rowHeight split ip.2).sum = (l.map (rowHeight split)).sum := by
  rw [show (fun ip : ℕ × Product => rowHeight split ip.2)
    = (rowHeight split) ∘ Prod.snd from rfl]
  rw [← List.map_map, List.enum_map_snd]

/-- C7(b) core: item rows whose total height exceeds a fresh page's content
area force at least two pages. -/
theorem docPages_two_pages (split : String → ℚ → ℕ) (qrGen : Option Unit)
    (bcGen : String → Option Unit) (d : ReceiptData)
    (hsum : pageHeight - margin - (margin + 10) < (d.products.map (rowHeight split)).sum) :
    2 ≤ (docPages split qrGen bcGen d).length := by
  unfold docPages
  dsimp only
  rw [List.length_append, List.length_singleton]
  by_contra h0
  push_neg at h0
  have hlen0 : (buildDoc split qrGen bcGen d).pages.length = 0 := by omega
  unfold buildDoc at hlen0
  have hA : (rowsStage split bcGen d
      (tableHeaderStage (gridStage (headerStage qrGen)))).pages.length = 0 := by
    have m1 := footerStage_pages_mono (policyStage (obsStage split (summaryStage d
      (rowsStage split bcGen d (tableHeaderStage (gridStage (headerStage qrGen)))))))
    have m2 := policyStage_pages_mono (obsStage split (summaryStage d
      (rowsStage split bcGen d (tableHeaderStage (gridStage (headerStage qrGen))))))
    have m3 := obsStage_pages_mono split (summaryStage d
      (rowsStage split bcGen d (tableHeaderStage (gridStage (headerStage qrGen)))))
    have m4 := summaryStage_pages_mono d
      (rowsStage split bcGen d (tableHeaderStage (gridStage (headerStage qrGen))))
    omega
  by_cases hemp : d.products.isEmpty = true
  · rw [List.isEmpty_iff.mp hemp] at hsum
    norm_num [pageHeight, margin] at hsum
  · rw [rowsStage_pages split bcGen d _ hemp, prefix_state] at hA
    have hpre : (⟨[], prefixPrims qrGen, 101⟩ : DocState).pages.length = 0 := rfl
    obtain ⟨hy, hbound⟩ := foldl_rowStep_len_y split bcGen d.products.enum
      (⟨[], prefixPrims qrGen, 101⟩ : DocState) (by simpa using hA)
    rcases hbound with hnil | hle
    · have : d.products = [] := by
        have := congrArg List.length hnil
        simpa [List.enum_length] using this
      rw [this] at hsum
      norm_num [pageHeight, margin] at hsum
    · rw [hy, enum_map_rowHeight] at hle
      have : (101 : ℚ) + (d.products.map (rowHeight split)).sum ≤ 287 := by
        norm_num [pageHeight, margin] at hle
        exact hle
      norm_num [pageHeight, margin] at hsum
      linarith

/-- Total number of `q`-primitives in the whole builder state. -/
def docCount (q : Prim → Bool) (s : DocState) : ℕ :=
  (s.pages.map (countP q)).sum + countP q s.cur

theorem countP_singleton (q : Prim → Bool) (p : Prim) :
    countP q [p] = if q p then 1 else 0 := by
  cases hq : q p <;> simp [countP, hq]

theorem docCount_emit (q : Prim → Bool) (s : DocState) (p : Prim) :
    docCount q (emit s p) = docCount q s + (if q p then 1 else 0) := by
  simp [docCount, emit, countP_append, countP_singleton, Nat.add_assoc]

theorem docCount_break (q : Prim → Bool) (h' : ℚ) (s : DocState) :
    docCount q ((checkPageBreak h' s).1) = docCount q s := by
  unfold checkPageBreak
  split_ifs <;> simp [docCount, countP]

theorem docCount_setY (q : Prim → Bool) (s : DocState) (a : ℚ) :
    docCount q { s with y := a } = docCount q s := rfl

theorem docCount_rowStep (q : Prim → Bool)
    (hq1 : ∀ y, q (.tableHeader y) = false)
    (hq2 : ∀ i y h, q (.itemRow i y h) = false)
    (hq3 : ∀ i, q (.barcodeImage i) = false)
    (split : String → ℚ → ℕ) (bc : String → Option Unit)
    (s : DocState) (ip : ℕ × Product) :
    docCount q (rowStep split bc s ip) = docCount q s := by
  unfold rowStep
  dsimp only
  by_cases hb : (checkPageBreak (rowHeight split ip.2) s).2 = true
  · rw [if_pos hb]
    by_cases hcode : (ip.2.code != "") = true
    · cases hbc : bc ip.2.code <;>
        · rw [if_pos hcode]
          simp [docCount_setY, docCount_emit, emitTableHeader, docCount_break,
            hq1, hq2, hq3]
    · rw [if_neg hcode]
      simp [docCount_setY, docCount_emit, emitTableHeader, docCount_break, hq1, hq2, hq3]
  · rw [if_neg hb]
    by_cases hcode : (ip.2.code != "") = true
    · cases hbc : bc ip.2.code <;>
        · rw [if_pos hcode]
          simp [docCount_setY, docCount_emit, emitTableHeader, docCount_break,
            hq1, hq2, hq3]
    · rw [if_neg hcode]
      simp [docCount_setY, docCount_emit, emitTableHeader, docCount_break, hq1, hq2, hq3]

theorem docCount_foldl_rows (q : Prim → Bool)
    (hq1 : ∀ y, q (.tableHeader y) = false)
    (hq2 : ∀ i y h, q (.itemRow i y h) = false)
    (hq3 : ∀ i, q (.barcodeImage i) = false)
    (split : String → ℚ → ℕ) (bc : String → Option Unit) (l : List (ℕ × Product)) :
    ∀ s : DocState, docCount q (l.foldl (rowStep split bc) s) = docCount q s := by
  induction l with
  | nil => intro s; rfl
  | cons ip l ih =>
    intro s
    rw [List.foldl_cons, ih, docCount_rowStep q hq1 hq2 hq3]

theorem docCount_rowsStage (q : Prim → Bool)
    (hq1 : ∀ y, q (.tableHeader y) = false)
    (hq2 : ∀ i y h, q (.itemRow i y h) = false)
    (hq3 : ∀ i, q (.barcodeImage i) = false)
    (hq4 : ∀ y, q (.emptyNote y) = false)
    (split : String → ℚ → ℕ) (bc : String → Option Unit) (d : ReceiptData)
    (s : DocState) : docCount q (rowsStage split bc d s) = docCount q s := by
  unfold rowsStage
  dsimp only
  split_ifs
  · simp [docCount_setY, docCount_emit, hq4]
  · simp [docCount_setY, docCount_foldl_rows q hq1 hq2 hq3]

theorem docCount_summaryStage (q : Prim → Bool) (d : ReceiptData) (s : DocState) :
    docCount q (summaryStage d s)
      = docCount q s + (if q (.summaryBlock ((checkPageBreak 25 s).1).y (summaryHeight d))
          then 1 else 0) := by
  unfold summaryStage
  dsimp only
  simp [docCount_setY, docCount_emit, docCount_break]

theorem docCount_obsStage (q : Prim → Bool) (split : String → ℚ → ℕ) (s : DocState)
    (hq : ∀ y h, q (.obsBlock y h) = false) :
    docCount q (obsStage split s) = docCount q s := by
  unfold obsStage
  dsimp only
  simp [docCount_setY, docCount_emit, docCount_break, hq]

theorem docCount_policyStage (q : Prim → Bool) (s : DocState) :
    docCount q (policyStage s)
      = docCount q s + (if q (.policyBlock ((checkPageBreak (58 + 10) s).1).y 58)
          then 1 else 0) := by
  unfold policyStage
  dsimp only
  simp [docCount_setY, docCount_emit, docCount_break]

theorem docCount_footerStage (q : Prim → Bool) (s : DocState) :
    docCount q (footerStage s)
      = docCount q s + (if q (.footerBlock ((checkPageBreak 45 s).1).y
          (max (((checkPageBreak 45 s).1).y + 45) (pageHeight - 10))) then 1 else 0) := by
  unfold footerStage
  dsimp only
  rw [docCount_emit, docCount_break]

theorem docPages_count_eq (q : Prim → Bool) (split : String → ℚ → ℕ)
    (qrGen : Option Unit) (bcGen : String → Option Unit) (d : ReceiptData) :
    ((docPages split qrGen bcGen d).map (countP q)).sum
      = docCount q (buildDoc split qrGen bcGen d) := by
  simp [docPages, docCount]

theorem docCount_prefix (q : Prim → Bool)
    (hq1 : ∀ y, q (.tableHeader y) = false)
    (hq2 : ∀ y, q (.titleBlock y) = false)
    (hq3 : ∀ y, q (.gridRow y) = false)
    (hq4 : q .brandHeader = false) (hq5 : q .qrImage = false)
    (qrGen : Option Unit) :
    docCount q (tableHeaderStage (gridStage (headerStage qrGen))) = 0 := by
  rw [prefix_state]
  cases qrGen <;>
    simp [docCount, countP, prefixPrims, List.filter_append, hq1, hq2, hq3, hq4, hq5]

/-- Every primitive in the state fits its page. -/
def allFits (s : DocState) : Prop :=
  (∀ pg ∈ s.pages, ∀ pr ∈ pg, blockFits pr) ∧ ∀ pr ∈ s.cur, blockFits pr

theorem allFits_emit {s : DocState} (h : allFits s) {p : Prim} (hp : blockFits p) :
    allFits (emit s p) := by
  obtain ⟨h1, h2⟩ := h
  refine ⟨h1, ?_⟩
  intro pr hpr
  rcases List.mem_append.mp hpr with hm | hm
  · exact h2 pr hm
  · rw [List.mem_singleton.mp hm]
    exact hp

theorem allFits_break {s : DocState} (h : allFits s) (h' : ℚ) :
    allFits ((checkPageBreak h' s).1) := by
  by_cases hb : (checkPageBreak h' s).2 = true
  · rw [checkPageBreak_true hb]
    obtain ⟨h1, h2⟩ := h
    refine ⟨?_, by simp⟩
    intro pg hpg
    rcases List.mem_append.mp hpg with hm | hm
    · exact h1 pg hm
    · rw [List.mem_singleton.mp hm]
      exact h2
  · rw [checkPageBreak_false (Bool.not_eq_true _ ▸ eq_false_of_ne_true hb)]
    exact h

theorem allFits_setY {s : DocState} (h : allFits s) (a : ℚ) :
    allFits { s with y := a } := h

theorem allFits_emitY {s : DocState} (h : allFits s) (a : ℚ) (p : Prim)
    (hp : blockFits p) : allFits { emit s p with y := a } := allFits_emit h hp

theorem blockFits_tableHeader (y : ℚ) : blockFits (.tableHeader y) := trivial

theorem blockFits_itemRow (i : ℕ) (y h : ℚ) : blockFits (.itemRow i y h) := trivial

theorem blockFits_barcode (i : ℕ) : blockFits (.barcodeImage i) := trivial

theorem blockFits_emptyNote (y : ℚ) : blockFits (.emptyNote y) := trivial

theorem blockFits_obs (y h : ℚ) : blockFits (.obsBlock y h) := trivial

theorem allFits_rowStep (split : String → ℚ → ℕ) (bc : String → Option Unit)
    {s : DocState} (h : allFits s) (ip : ℕ × Product) :
    allFits (rowStep split bc s ip) := by
  unfold rowStep
  dsimp only
  have h1 : allFits (if (checkPageBreak (rowHeight split ip.2) s).2 = true then
      emitTableHeader (checkPageBreak (rowHeight split ip.2) s).1
    else (checkPageBreak (rowHeight split ip.2) s).1) := by
    split_ifs
    · exact allFits_setY (allFits_emit (allFits_break h _) (blockFits_tableHeader _)) _
    · exact allFits_break h _
  by_cases hcode : (ip.2.code != "") = true
  · cases hbc : bc ip.2.code
    · rw [if_pos hcode]
      exact allFits_setY (allFits_emit h1 (blockFits_itemRow _ _ _)) _
    · rw [if_pos hcode]
      exact allFits_setY (allFits_emit (allFits_emit h1 (blockFits_itemRow _ _ _))
        (blockFits_barcode _)) _
  · rw [if_neg hcode]
    exact allFits_setY (allFits_emit h1 (blockFits_itemRow _ _ _)) _

theorem allFits_foldl_rows (split : String → ℚ → ℕ) (bc : String → Option Unit)
    (l : List (ℕ × Product)) :
    ∀ {s : DocState}, allFits s → allFits (l.foldl (rowStep split bc) s) := by
  induction l with
  | nil => intro s h; exact h
  | cons ip l ih => intro s h; exact ih (allFits_rowStep split bc h ip)

theorem allFits_rowsStage (split : String → ℚ → ℕ) (bc : String → Option Unit)
    (d : ReceiptData) {s : DocState} (h : allFits s) : allFits (rowsStage split bc d s) := by
  unfold rowsStage
  dsimp only
  split_ifs
  · exact allFits_setY (allFits_emitY h _ _ (blockFits_emptyNote _)) _
  · exact allFits_setY (allFits_foldl_rows split bc _ h) _

theorem summaryHeight_le (d : ReceiptData) : summaryHeight d ≤ 25 := by
  unfold summaryHeight
  dsimp only
  split_ifs <;> norm_num

theorem allFits_summaryStage (d : ReceiptData) {s : DocState} (h : allFits s) :
    allFits (summaryStage d s) := by
  unfold summaryStage
  dsimp only
  refine allFits_emitY (allFits_break h 25) _ _ ?_
  show ((checkPageBreak 25 s).1).y + summaryHeight d ≤ pageHeight - margin
  have hpost := checkPageBreak_post (by norm_num [pageHeight, margin] : (25 : ℚ)
    ≤ pageHeight - margin - (margin + 10)) s
  have := summaryHeight_le d
  linarith

theorem allFits_obsStage (split : String → ℚ → ℕ) {s : DocState} (h : allFits s) :
    allFits (obsStage split s) := by
  unfold obsStage
  dsimp only
  exact allFits_emitY (allFits_break (allFits_setY h _) _) _ _ (blockFits_obs _ _)

theorem allFits_policyStage {s : DocState} (h : allFits s) : allFits (policyStage s) := by
  unfold policyStage
  dsimp only
  refine allFits_emitY (allFits_break h (58 + 10)) _ _ ?_
  show ((checkPageBreak (58 + 10) s).1).y + 58 ≤ pageHeight - margin
  have hpost := checkPageBreak_post (by norm_num [pageHeight, margin] : (58 + 10 : ℚ)
    ≤ pageHeight - margin - (margin + 10)) s
  linarith

theorem allFits_footerStage {s : DocState} (h : allFits s) : allFits (footerStage s) := by
  unfold footerStage
  dsimp only
  refine allFits_emit (allFits_break h 45) ?_
  show max (((checkPageBreak 45 s).1).y + 45) (pageHeight - 10) ≤ pageHeight - margin
  have hpost := checkPageBreak_post (by norm_num [pageHeight, margin] : (45 : ℚ)
    ≤ pageHeight - margin - (margin + 10)) s
  refine max_le hpost ?_
  norm_num [pageHeight, margin]

theorem allFitsPrefixState (qrGen : Option Unit) :
    allFits (tableHeaderStage (gridStage (headerStage qrGen))) := by
  rw [prefix_state]
  refine ⟨fun pg hpg => absurd hpg (List.not_mem_nil pg), ?_⟩
  intro pr hpr
  cases qrGen <;> simp only [prefixPrims, List.cons_append, List.nil_append,
    List.mem_cons, List.not_mem_nil, or_false] at hpr <;>
    rcases hpr with rfl | rfl | rfl | rfl | rfl | rfl | rfl <;> trivial

theorem docPages_allFits (split : String → ℚ → ℕ) (qrGen : Option Unit)
    (bcGen : String → Option Unit) (d : ReceiptData) :
    ∀ pg ∈ docPages split qrGen bcGen d, ∀ pr ∈ pg, blockFits pr := by
  have hfin : allFits (buildDoc split qrGen bcGen d) :=
    allFits_footerStage (allFits_policyStage (allFits_obsStage split
      (allFits_summaryStage d (allFits_rowsStage split bcGen d (allFitsPrefixState qrGen)))))
  obtain ⟨h1, h2⟩ := hfin
  intro pg hpg
  unfold docPages at hpg
  rcases List.mem_append.mp hpg with hm | hm
  · exact h1 pg hm
  · rw [List.mem_singleton.mp hm]
    exact h2

theorem buildDoc_summary_count (split : String → ℚ → ℕ) (qrGen : Option Unit)
    (bcGen : String → Option Unit) (d : ReceiptData) :
    ((docPages split qrGen bcGen d).map (countP isSummary)).sum = 1 := by
  rw [docPages_count_eq]
  unfold buildDoc
  rw [docCount_footerStage, docCount_policyStage,
    docCount_obsStage isSummary split _ (fun _ _ => rfl),
    docCount_summaryStage,
    docCount_rowsStage isSummary (fun _ => rfl) (fun _ _ _ => rfl) (fun _ => rfl)
      (fun _ => rfl),
    docCount_prefix isSummary (fun _ => rfl) (fun _ => rfl) (fun _ => rfl) rfl rfl]
  simp [isSummary]

theorem buildDoc_policy_count (split : String → ℚ → ℕ) (qrGen : Option Unit)
    (bcGen : String → Option Unit) (d : ReceiptData) :
    ((docPages split qrGen bcGen d).map (countP isPolicy)).sum = 1 := by
  rw [docPages_count_eq]
  unfold buildDoc
  rw [docCount_footerStage, docCount_policyStage,
    docCount_obsStage isPolicy split _ (fun _ _ => rfl),
    docCount_summaryStage,
    docCount_rowsStage isPolicy (fun _ => rfl) (fun _ _ _ => rfl) (fun _ => rfl)
      (fun _ => rfl),
    docCount_prefix isPolicy (fun _ => rfl) (fun _ => rfl) (fun _ => rfl) rfl rfl]
  simp [isPolicy]

theorem buildDoc_footer_count (split : String → ℚ → ℕ) (qrGen : Option Unit)
    (bcGen : String → Option Unit) (d : ReceiptData) :
    ((docPages split qrGen bcGen d).map (countP isFooter)).sum = 1 := by
  rw [docPages_count_eq]
  unfold buildDoc
  rw [docCount_footerStage, docCount_policyStage,
    docCount_obsStage isFooter split _ (fun _ _ => rfl),
    docCount_summaryStage,
    docCount_rowsStage isFooter (fun _ => rfl) (fun _ _ _ => rfl) (fun _ => rfl)
      (fun _ => rfl),
    docCount_prefix isFooter (fun _ => rfl) (fun _ => rfl) (fun _ => rfl) rfl rfl]
  simp [isFooter]

/-- **C7**: every produced page that contains item rows carries exactly one
table-header band; item rows whose total height exceeds one page's content
area force a document of at least two pages; and the summary, policy and
footer blocks are each emitted exactly once, behind their own page-break
checkpoint, wholly within one page's bottom margin (never split). -/
theorem C7_pagination (split : String → ℚ → ℕ) (qrGen : Option Unit)
    (bcGen : String → Option Unit) (d : ReceiptData) :
    (∀ pg ∈ docPages split qrGen bcGen d,
        (∃ pr ∈ pg, isRow pr = true) → countP isHeaderBand pg = 1) ∧
    (pageHeight - margin - (margin + 10) < (d.products.map (rowHeight split)).sum →
        2 ≤ (docPages split qrGen bcGen d).length) ∧
    ((docPages split qrGen bcGen d).map (countP isSummary)).sum = 1 ∧
    ((docPages split qrGen bcGen d).map (countP isPolicy)).sum = 1 ∧
    ((docPages split qrGen bcGen d).map (countP isFooter)).sum = 1 ∧
    (∀ pg ∈ docPages split qrGen bcGen d, ∀ pr ∈ pg, blockFits pr) :=
  ⟨docPages_pagesOK split qrGen bcGen d,
   fun hsum => docPages_two_pages split qrGen bcGen d hsum,
   buildDoc_summary_count split qrGen bcGen d,
   buildDoc_policy_count split qrGen bcGen d,
   buildDoc_footer_count split qrGen bcGen d,
   docPages_allFits split qrGen bcGen d⟩

/-- Word wrap stub: every text wraps to a single line. -/
def exSplitOne : String → ℚ → ℕ := fun _ _ => 1

/-- Word wrap stub: every text wraps to 60 lines. -/
def exSplitTall : String → ℚ → ℕ := fun _ _ => 60

/-- One-plain-item receipt with no discounts. -/
def exReceiptOne : ReceiptData := ⟨[plainItem], .fixed, 0, none, none⟩

/-- Two-plain-item receipt whose rows are 216 tall each. -/
def exReceiptTall : ReceiptData := ⟨[plainItem, plainItem], .fixed, 0, none, none⟩

/-- The single page produced for `exReceiptOne` under `exSplitOne`. -/
def exPage : List Prim :=
  [.brandHeader, .titleBlock 48, .gridRow 59, .gridRow 69, .gridRow 79, .tableHeader 95,
   .itemRow 0 101 (19/2), .summaryBlock (229/2) 21, .obsBlock (279/2) (27/2),
   .policyBlock 157 58, .footerBlock 215 287]

theorem docPages_exOne :
    docPages exSplitOne none (fun _ => none) exReceiptOne = [exPage] := by
  norm_num [docPages, buildDoc, footerStage, policyStage, obsStage, summaryStage,
    rowsStage, tableHeaderStage, gridStage, gridRowStep, headerStage, rowStep,
    emitTableHeader, emit, checkPageBreak, rowHeight, summaryHeight, obsHeight,
    pdfSubtotal, pdfManualDiscountAmount, pdfBundleDiscountAmount, exSplitOne,
    exReceiptOne, plainItem, pageHeight, margin, contentWidth, exPage,
    List.enum, List.enumFrom,
    show (("100004" : String) != "") = true from by decide,
    show (("" : String) != "") = false from by decide]

/-- Closed instances of `C7_pagination`: the one-page document's single page
(which contains an item row) carries exactly one header band, and two
216-tall rows force at least two pages. -/
theorem C7_pagination_witness :
    countP isHeaderBand exPage = 1 ∧
    2 ≤ (docPages exSplitTall none (fun _ => none) exReceiptTall).length := by
  constructor
  · apply (C7_pagination exSplitOne none (fun _ => none) exReceiptOne).1 exPage
    · rw [docPages_exOne]
      exact List.mem_singleton.mpr rfl
    · exact ⟨.itemRow 0 101 (19/2), by simp [exPage], rfl⟩
  · apply (C7_pagination exSplitTall none (fun _ => none) exReceiptTall).2.1
    norm_num [exReceiptTall, rowHeight, exSplitTall, plainItem, pageHeight, margin,
      show (("" : String) != "") = false from by decide]

end Cupom
